import Mathlib

/-!
PLC client (`plc_slmp::PlcClient`) and its access-pattern tests.

A shallow embedding of `include/test_slmp/plc_client.hpp`:

* the six register-address patterns (`std::regex`) and `std::regex_match`,
  embedded as a small regular-expression matcher over the pattern shapes
  that occur in the header;
* the address classifier (`get_register_type`, `validate_register_address`,
  `is_valid_register_address`, `get_address_type`);
* the session lifecycle (`init_plc`, `disconnect`) and the four batched
  read / write operations, as state-passing functions over an abstract
  protocol engine (`libmelcli`), with the sequence of engine calls recorded
  in an event trace;

and of the benchmark `test_scattered_access.cpp`:

* `RegisterGroup`, `register_groups` and `scattered_pattern`;
* the four passes of a cycle (scattered and sequential write, scattered and
  sequential read) and the data integrity check, the check returning `none`
  where the source would index a vector past its end;
* the controller as a D-register memory behind the engine interface, for the
  claims that are stated over an ideal memory.

Conventions: a `const char *` is `Option String` (`none` is the null pointer,
`some s` points at the text `s`); `uint16_t` words and `size_t` sizes are
`Nat`; an `int` is an `Int` and its conversion to `size_t` is written out
(`toSizeT`).  Console diagnostics (`std::cerr`) are not part of the model.
-/

namespace plc_slmp

/-! ## Register kinds -/

/-- The `enum class RegisterType` of the header. -/
inductive RegisterType
  | D_REGISTER
  | X_REGISTER
  | Y_REGISTER
  | M_REGISTER
  | B_REGISTER
  | SD_REGISTER
  | UNKNOWN
  deriving DecidableEq, Repr

/-! ## Regular expressions of the header -/

/-- A pattern element that consumes exactly one character. -/
inductive Atom
  /-- an ordinary character, such as `D` -/
  | lit (c : Char)
  /-- the class escape `\d` -/
  | digit
  /-- a bracket expression made of ranges, such as `[0-9A-Fa-f]` -/
  | cls (ranges : List (Char × Char))

/-- Whether a character lies in the range `lo-hi` of a bracket expression. -/
def inRange (lo hi x : Char) : Bool :=
  decide (lo.toNat ≤ x.toNat) && decide (x.toNat ≤ hi.toNat)

/-- Whether an atom accepts a character (`\d` is `0-9` in the "C" locale). -/
def Atom.test : Atom → Char → Bool
  | .lit c, x => x == c
  | .digit, x => inRange '0' '9' x
  | .cls ranges, x => ranges.any (fun r => inRange r.1 r.2 x)

/-- One term of a pattern: the assertions `^` and `$`, an atom, or an atom
under the quantifier `+`. -/
inductive Node
  | bol
  | eol
  | one (a : Atom)
  | plus (a : Atom)

/-- A pattern is the concatenation of its terms. -/
abbrev Regex := List Node

/-- The quantifier `+`: consume one or more characters accepted by `p`, then
continue with `k` on what is left (every split point is tried). -/
def plusLoop (p : Char → Bool) (k : List Char → Bool) : List Char → Bool
  | [] => false
  | c :: s => p c && (k s || plusLoop p k s)

/-- Match the terms against the rest of the input; `atStart` tells whether no
character has been consumed yet.  The whole input has to be consumed. -/
def matchNodes : List Node → Bool → List Char → Bool
  | [], _, s => s.isEmpty
  | .bol :: r, atStart, s => atStart && matchNodes r atStart s
  | .eol :: r, atStart, s => s.isEmpty && matchNodes r atStart s
  | .one a :: r, _, s =>
    match s with
    | [] => false
    | c :: s' => a.test c && matchNodes r false s'
  | .plus a :: r, _, s => plusLoop a.test (fun s' => matchNodes r false s') s

/-- The call `std::regex_match(addr, pattern)`: the pattern has to match the
entire string. -/
def regex_match (addr : String) (pattern : Regex) : Bool :=
  matchNodes pattern true addr.toList

/-- The bracket expression `[0-9A-Fa-f]`. -/
def hexClass : Atom := .cls [('0', '9'), ('A', 'F'), ('a', 'f')]

/-- The pattern `^D\d+$`. -/
def d_register_pattern_ : Regex := [.bol, .one (.lit 'D'), .plus .digit, .eol]

/-- The pattern `^X[0-9A-Fa-f]+$`. -/
def x_register_pattern_ : Regex := [.bol, .one (.lit 'X'), .plus hexClass, .eol]

/-- The pattern `^Y[0-9A-Fa-f]+$`. -/
def y_register_pattern_ : Regex := [.bol, .one (.lit 'Y'), .plus hexClass, .eol]

/-- The pattern `^M\d+$`. -/
def m_register_pattern_ : Regex := [.bol, .one (.lit 'M'), .plus .digit, .eol]

/-- The pattern `^B[0-9A-Fa-f]+$`. -/
def b_register_pattern_ : Regex := [.bol, .one (.lit 'B'), .plus hexClass, .eol]

/-- The pattern `^SD[0-9A-Fa-f]+$`. -/
def sd_register_pattern_ : Regex :=
  [.bol, .one (.lit 'S'), .one (.lit 'D'), .plus hexClass, .eol]

/-! ## The classifier -/

/-- `PlcClient::get_register_type`: the six patterns tried in order. -/
def get_register_type (addr : String) : RegisterType :=
  if regex_match addr d_register_pattern_ then RegisterType.D_REGISTER
  else if regex_match addr x_register_pattern_ then RegisterType.X_REGISTER
  else if regex_match addr y_register_pattern_ then RegisterType.Y_REGISTER
  else if regex_match addr m_register_pattern_ then RegisterType.M_REGISTER
  else if regex_match addr b_register_pattern_ then RegisterType.B_REGISTER
  else if regex_match addr sd_register_pattern_ then RegisterType.SD_REGISTER
  else RegisterType.UNKNOWN

/-- The C function `strlen`. -/
def strlen (s : String) : Nat := s.length

/-- `PlcClient::validate_register_address`. -/
def validate_register_address (addr : Option String) : Bool :=
  match addr with
  | none => false
  | some a =>
    if strlen a = 0 then false
    else
      let address : String := a
      let type := get_register_type address
      if type = RegisterType.UNKNOWN then false else true

/-- `PlcClient::is_valid_register_address`. -/
def is_valid_register_address (addr : Option String) : Bool :=
  validate_register_address addr

/-- `PlcClient::get_address_type`. -/
def get_address_type (addr : Option String) : RegisterType :=
  match addr with
  | none => RegisterType.UNKNOWN
  | some a => get_register_type a

/-! ## The grammar as the specification words it -/

/-- A decimal digit. -/
def isDecimalDigit (c : Char) : Prop := c ∈ "0123456789".toList

/-- A hex digit: `0-9`, `A-F`, `a-f`. -/
def isHexDigit (c : Char) : Prop := c ∈ "0123456789ABCDEFabcdef".toList

instance (c : Char) : Decidable (isDecimalDigit c) := by
  unfold isDecimalDigit; infer_instance

instance (c : Char) : Decidable (isHexDigit c) := by
  unfold isHexDigit; infer_instance

/-- The text is the given prefix followed by one or more digits of the given
alphabet. -/
def PrefixThenDigits (pre : String) (alphabet : Char → Prop) (s : String) : Prop :=
  ∃ ds : List Char, ds ≠ [] ∧ (∀ c ∈ ds, alphabet c) ∧ s.toList = pre.toList ++ ds

/-- The grammar rule of each kind (`UNKNOWN` has no rule). -/
def MatchesRule : RegisterType → String → Prop
  | .D_REGISTER, s => PrefixThenDigits "D" isDecimalDigit s
  | .M_REGISTER, s => PrefixThenDigits "M" isDecimalDigit s
  | .X_REGISTER, s => PrefixThenDigits "X" isHexDigit s
  | .Y_REGISTER, s => PrefixThenDigits "Y" isHexDigit s
  | .B_REGISTER, s => PrefixThenDigits "B" isHexDigit s
  | .SD_REGISTER, s => PrefixThenDigits "SD" isHexDigit s
  | .UNKNOWN, _ => False

/-- The first character of the texts of each rule. -/
def ruleLetter : RegisterType → Option Char
  | .D_REGISTER => some 'D'
  | .X_REGISTER => some 'X'
  | .Y_REGISTER => some 'Y'
  | .M_REGISTER => some 'M'
  | .B_REGISTER => some 'B'
  | .SD_REGISTER => some 'S'
  | .UNKNOWN => none

/-! ## The protocol engine behind the client -/

/-- A non-null `melcli_ctx_t *`. -/
abbrev Handle := Nat

/-- What the client does to the outside, in program order: operations on its
`std::mutex` and calls into `libmelcli` (with their arguments and results). -/
inductive Event
  | lock
  | unlock
  | new_context (ctxtype : Int) (ip : String) (port : Int) (ret : Option Handle)
  | connect (ctx : Handle) (ret : Int)
  | disconnect (ctx : Handle)
  | free_context (ctx : Handle)
  | batch_read (ctx : Option Handle) (addr : Option String) (num : Int)
      (ret : Int) (rd_words : List Nat)
  | batch_write (ctx : Option Handle) (addr : Option String) (num : Int)
      (data : List Nat) (ret : Int)
  | free
  deriving DecidableEq, Repr

/-- The library functions the client calls, over an engine state `E`.
`batch_read` gives the status and the buffer it stored in `rd_words`;
`batch_write` is given the `num` words found at its data pointer. -/
structure Engine (E : Type) where
  new_context : E → Int → String → Int → Option Handle × E
  connect : E → Handle → Int × E
  disconnect : E → Handle → E
  free_context : E → Handle → E
  batch_read : E → Option Handle → Option String → Int → Int × List Nat × E
  batch_write : E → Option Handle → Option String → Int → List Nat → Int × E

/-- The client object (the fields that the operations use), the state of the
engine it talks to, and the events so far. -/
structure State (E : Type) where
  g_ctx_ : Option Handle
  ctxtype_ : Int
  target_ip_addr_ : String
  target_port_ : Int
  eng : E
  trace : List Event
  deriving DecidableEq, Repr

/-- The constructor `PlcClient(target_ip_addr, target_port, type_protocol)`:
`g_ctx_` starts as `NULL`. -/
def PlcClient (target_ip_addr : String) (target_port : Int) (type_protocol : Int)
    {E : Type} (eng : E) : State E :=
  { g_ctx_ := none, ctxtype_ := type_protocol, target_ip_addr_ := target_ip_addr,
    target_port_ := target_port, eng := eng, trace := [] }

variable {E : Type}

/-- Record an event. -/
def emit (st : State E) (ev : Event) : State E :=
  { st with trace := st.trace ++ [ev] }

/-- The call `melcli_disconnect(ctx)`; its result is not looked at. -/
def melcli_disconnect (M : Engine E) (st : State E) (ctx : Handle) : State E :=
  emit { st with eng := M.disconnect st.eng ctx } (.disconnect ctx)

/-- The call `melcli_free_context(ctx)`. -/
def melcli_free_context (M : Engine E) (st : State E) (ctx : Handle) : State E :=
  emit { st with eng := M.free_context st.eng ctx } (.free_context ctx)

/-- The call `melcli_new_context(ctxtype_, target_ip_addr_, target_port_, ...)`. -/
def melcli_new_context (M : Engine E) (st : State E) : Option Handle × State E :=
  let r := M.new_context st.eng st.ctxtype_ st.target_ip_addr_ st.target_port_
  (r.1, emit { st with eng := r.2 }
    (.new_context st.ctxtype_ st.target_ip_addr_ st.target_port_ r.1))

/-- The call `melcli_connect(ctx)`. -/
def melcli_connect (M : Engine E) (st : State E) (ctx : Handle) : Int × State E :=
  let r := M.connect st.eng ctx
  (r.1, emit { st with eng := r.2 } (.connect ctx r.1))

/-- The call `melcli_batch_read(g_ctx_, NULL, addr, num, &rd_words, NULL)`. -/
def melcli_batch_read (M : Engine E) (st : State E) (addr : Option String) (num : Int) :
    Int × List Nat × State E :=
  let r := M.batch_read st.eng st.g_ctx_ addr num
  (r.1, r.2.1, emit { st with eng := r.2.2 } (.batch_read st.g_ctx_ addr num r.1 r.2.1))

/-- The call `melcli_batch_write(g_ctx_, NULL, addr, num, data)`. -/
def melcli_batch_write (M : Engine E) (st : State E) (addr : Option String) (num : Int)
    (data : List Nat) : Int × State E :=
  let r := M.batch_write st.eng st.g_ctx_ addr num data
  (r.1, emit { st with eng := r.2 } (.batch_write st.g_ctx_ addr num data r.1))

/-! ## Session lifecycle -/

/-- `PlcClient::init_plc`.  None of the calls in the `try` block throws, so
the `catch (...)` branch is never taken. -/
def init_plc (M : Engine E) (st : State E) : Bool × State E :=
  let st1 :=
    match st.g_ctx_ with
    | some ctx => melcli_free_context M (melcli_disconnect M st ctx) ctx
    | none => st
  let r := melcli_new_context M st1
  let st2 : State E := { r.2 with g_ctx_ := r.1 }
  match r.1 with
  | none => (false, st2)
  | some ctx =>
    let c := melcli_connect M st2 ctx
    if c.1 ≠ 0 then (false, c.2) else (true, c.2)

/-- `PlcClient::disconnect`.  `g_ctx_` is not assigned. -/
def disconnect (M : Engine E) (st : State E) : Bool × State E :=
  match st.g_ctx_ with
  | some ctx => (true, melcli_free_context M (melcli_disconnect M st ctx) ctx)
  | none => (true, st)

/-- `PlcClient::~PlcClient`. -/
def destroy (M : Engine E) (st : State E) : State E :=
  match st.g_ctx_ with
  | some ctx => melcli_free_context M (melcli_disconnect M st ctx) ctx
  | none => st

/-- The statement `if (g_ctx_ != NULL) { melcli_disconnect(g_ctx_);
melcli_free_context(g_ctx_); }` that opens `init_plc` and makes up
`disconnect` and the destructor. -/
def teardown (M : Engine E) (st : State E) : State E :=
  match st.g_ctx_ with
  | some ctx => melcli_free_context M (melcli_disconnect M st ctx) ctx
  | none => st

/-! ## Batched register access -/

/-- Conversion of an `int` to `size_t` (64 bit), as in `data.size() < num`
and `i < num`. -/
def toSizeT (n : Int) : Nat := (n % 2 ^ 64).toNat

/-- The values of the type `int`. -/
def IsCInt (n : Int) : Prop := -2 ^ 31 ≤ n ∧ n < 2 ^ 31

instance (n : Int) : Decidable (IsCInt n) := by unfold IsCInt; infer_instance

/-- `std::vector<uint16_t>::max_size()`. -/
def vector_max_size : Nat := (2 ^ 63 - 1) / 2

/-- `data.resize(n)`: `none` when it throws `std::length_error`. -/
def resize (data : List Nat) (n : Nat) : Option (List Nat) :=
  if n > vector_max_size then none
  else some (data.take n ++ List.replicate (n - data.length) 0)

/-- The loop `for (size_t i = 0; i < num; i++) data[i] = rd_words[i];`.
Reading `rd_words` past the buffer the engine returned is undefined in the
source; the model reads `0` there. -/
def copy_words (rd_words : List Nat) (n : Nat) (data : List Nat) : List Nat :=
  (List.range n).foldl (fun d i => d.set i (rd_words.getD i 0)) data

/-- How a call ends: it returns a `bool`, or an exception leaves it. -/
inductive Outcome
  | returned (ok : Bool)
  | threw
  deriving DecidableEq, Repr

/-- `PlcClient::read_batch_d_register(addr, data)`; the second component is
`data` after the call. -/
def read_batch_d_register (M : Engine E) (st : State E) (addr : Option String)
    (data : Nat) : Bool × Nat × State E :=
  if validate_register_address addr = false then (false, data, st)
  else
    let st1 := emit st .lock
    let r := melcli_batch_read M st1 addr 1
    if r.1 ≠ 0 then (false, data, emit r.2.2 .unlock)
    else
      let data1 := r.2.1.getD 0 0
      let st2 := emit r.2.2 .free
      (true, data1, emit st2 .unlock)

/-- `PlcClient::read_batch_d_registers(addr, num, data)`; the second
component is `data` after the call. -/
def read_batch_d_registers (M : Engine E) (st : State E) (addr : Option String)
    (num : Int) (data : List Nat) : Outcome × List Nat × State E :=
  if validate_register_address addr = false then (.returned false, data, st)
  else
    let st1 := emit st .lock
    let r := melcli_batch_read M st1 addr num
    if r.1 ≠ 0 then (.returned false, data, emit r.2.2 .unlock)
    else
      match resize data (toSizeT num) with
      | none => (.threw, data, emit r.2.2 .unlock)
      | some data1 =>
        let data2 := copy_words r.2.1 (toSizeT num) data1
        let st2 := emit r.2.2 .free
        (.returned true, data2, emit st2 .unlock)

/-- `PlcClient::write_batch_d_register(addr, data)`. -/
def write_batch_d_register (M : Engine E) (st : State E) (addr : Option String)
    (data : Nat) : Bool × State E :=
  if validate_register_address addr = false then (false, st)
  else
    let st1 := emit st .lock
    let r := melcli_batch_write M st1 addr 1 [data]
    if r.1 ≠ 0 then (false, emit r.2 .unlock)
    else (true, emit r.2 .unlock)

/-- `PlcClient::write_batch_d_registers(addr, num, data)`. -/
def write_batch_d_registers (M : Engine E) (st : State E) (addr : Option String)
    (num : Int) (data : List Nat) : Bool × State E :=
  if validate_register_address addr = false then (false, st)
  else if data.length < toSizeT num then (false, st)
  else
    let st1 := emit st .lock
    let write_data := data.take num.toNat
    let r := melcli_batch_write M st1 addr num write_data
    if r.1 ≠ 0 then (false, emit r.2 .unlock)
    else (true, emit r.2 .unlock)

/-! ## A test double for the engine -/

/-- State of the test double: the next handle it hands out and the fixed
answers it gives. -/
structure Double where
  next : Handle
  connect_rc : Int
  read_rc : Int
  read_words : List Nat
  write_rc : Int
  deriving DecidableEq, Repr

/-- The test double: every `new_context` succeeds with a fresh handle, the
other calls answer as the state says. -/
def doubleEngine : Engine Double where
  new_context := fun e _ _ _ => (some e.next, { e with next := e.next + 1 })
  connect := fun e _ => (e.connect_rc, e)
  disconnect := fun e _ => e
  free_context := fun e _ => e
  batch_read := fun e _ _ _ => (e.read_rc, e.read_words, e)
  batch_write := fun e _ _ _ _ => (e.write_rc, e)

/-- A test double whose calls all succeed and whose reads give `7, 8, 9`. -/
def okDouble : Double :=
  { next := 1, connect_rc := 0, read_rc := 0, read_words := [7, 8, 9], write_rc := 0 }

/-- A client of the benchmark programs, not yet opened, on the test double. -/
def freshClient (e : Double) : State Double :=
  PlcClient "192.168.6.10" 502 0 e

/-! ## Reading the event trace -/

/-- Whether an event is a call of `melcli_batch_write`. -/
def Event.isBatchWrite : Event → Bool
  | .batch_write _ _ _ _ _ => true
  | _ => false

/-- Whether an event is a call into the engine (anything but the mutex). -/
def Event.isEngineCall : Event → Bool
  | .lock => false
  | .unlock => false
  | _ => true

/-- Number of `melcli_batch_write` calls in a trace. -/
def batchWriteCalls (tr : List Event) : Nat := tr.countP Event.isBatchWrite

/-- Number of engine calls in a trace. -/
def engineCalls (tr : List Event) : Nat := tr.countP Event.isEngineCall

/-- A test double whose reads fail. -/
def readFailDouble : Double := { okDouble with read_rc := -1 }

/-- A test double that refuses every `connect`. -/
def refusingDouble : Double := { okDouble with connect_rc := -1 }

/-! ## Live contexts and lifecycle runs -/

/-- One step of the bookkeeping of contexts that were created and not freed
since. -/
def unfreedStep (live : List Handle) : Event → List Handle
  | .new_context _ _ _ (some ctx) => ctx :: live
  | .free_context ctx => live.erase ctx
  | _ => live

/-- The contexts created and not freed since, after a trace. -/
def unfreed (tr : List Event) : List Handle := tr.foldl unfreedStep []

/-- One step of the bookkeeping of contexts that were created and not
disconnected since. -/
def undisconnectedStep (live : List Handle) : Event → List Handle
  | .new_context _ _ _ (some ctx) => ctx :: live
  | .disconnect ctx => live.erase ctx
  | _ => live

/-- The contexts created and not disconnected since, after a trace. -/
def undisconnected (tr : List Event) : List Handle := tr.foldl undisconnectedStep []

/-- Whether an event is a call of `melcli_new_context`. -/
def Event.isNewContext : Event → Bool
  | .new_context _ _ _ _ => true
  | _ => false

/-- A lifecycle call on the client. -/
inductive LifecycleCall
  | init_plc
  | disconnect
  deriving DecidableEq, Repr

/-- Make one lifecycle call (its `bool` result is dropped). -/
def lifecycleStep (M : Engine E) (st : State E) : LifecycleCall → State E
  | .init_plc => (init_plc M st).2
  | .disconnect => (disconnect M st).2

/-- Make a sequence of lifecycle calls, one after the other. -/
def lifecycleRun (M : Engine E) (st : State E) (calls : List LifecycleCall) : State E :=
  calls.foldl (lifecycleStep M) st

/-- The lifecycle discipline of a trace: whenever `melcli_new_context` is
called, every context created before has been disconnected and freed; and
after every prefix of the trace at most one context is created and not yet
freed. -/
def OneLiveHandle (tr : List Event) : Prop :=
  (∀ pre ev post, tr = pre ++ ev :: post → ev.isNewContext = true →
    unfreed pre = [] ∧ undisconnected pre = []) ∧
  (∀ pre, pre <+: tr → (unfreed pre).length ≤ 1)

/-- The only context that can be live is the one `g_ctx_` points at. -/
def HeldBy (g : Option Handle) (live : List Handle) : Prop :=
  live = [] ∨ ∃ ctx, g = some ctx ∧ live = [ctx]

/-- Invariant of the client between lifecycle calls. -/
def LifecycleInv (st : State E) : Prop :=
  OneLiveHandle st.trace ∧ HeldBy st.g_ctx_ (unfreed st.trace) ∧
    HeldBy st.g_ctx_ (undisconnected st.trace)

/-! ## The benchmark program `test_scattered_access.cpp`: its data -/

/-- The function `std::to_string(int)`: the decimal digits of the value, after
a minus sign when it is negative. -/
def to_string (value : Int) : String :=
  if value < 0 then String.mk ('-' :: Nat.toDigits 10 value.natAbs)
  else String.mk (Nat.toDigits 10 value.toNat)

/-- The `struct RegisterGroup`. -/
structure RegisterGroup where
  start_addr : Int
  count : Int
  name : String
  deriving DecidableEq, Repr

/-- `RegisterGroup::get_address`. -/
def RegisterGroup.get_address (g : RegisterGroup) : String :=
  "D" ++ to_string g.start_addr

/-- The vector `register_groups` of `main`. -/
def register_groups : List RegisterGroup :=
  [ RegisterGroup.mk 1 100 "D1-D100",
    RegisterGroup.mk 101 100 "D101-D200",
    RegisterGroup.mk 201 100 "D201-D300",
    RegisterGroup.mk 301 100 "D301-D400",
    RegisterGroup.mk 401 100 "D401-D500",
    RegisterGroup.mk 501 100 "D501-D600",
    RegisterGroup.mk 601 100 "D601-D700",
    RegisterGroup.mk 701 100 "D701-D800",
    RegisterGroup.mk 801 100 "D801-D900",
    RegisterGroup.mk 901 100 "D901-D1000" ]

/-- The vector `scattered_pattern` of `main`. -/
def scattered_pattern : List Nat := [0, 5, 1, 6, 2, 7, 3, 8, 4, 9]

/-- The value a run of decimal digits spells, continuing from `acc`. -/
def decimalValue (acc : Nat) (ds : List Char) : Nat :=
  ds.foldl (fun a c => 10 * a + (c.toNat - 48)) acc

/-! ## The mutex in the event trace -/

/-- The events a call added to the trace. -/
def newEvents (before after : List Event) : List Event := after.drop before.length

/-- Scan the events of one call, `held` telling whether the call holds the
mutex: the mutex is taken only when not held, released only when held, every
engine call happens while it is held, and it is not held at the end. -/
def lockedCalls : Bool → List Event → Bool
  | held, [] => !held
  | held, .lock :: rest => !held && lockedCalls true rest
  | held, .unlock :: rest => held && lockedCalls false rest
  | held, _ :: rest => held && lockedCalls held rest

/-! ## The controller as a D-register memory -/

/-- The register offset a D address names: `D` followed by decimal digits. -/
def d_offset (addr : Option String) : Option Nat :=
  match addr with
  | none => none
  | some s =>
    if regex_match s d_register_pattern_ then some (decimalValue 0 (s.toList.drop 1))
    else none

/-- Memory after the words `data` are stored at the offsets `off`, `off + 1`, ... -/
def store (mem : Nat → Nat) (off : Nat) (data : List Nat) : Nat → Nat :=
  fun a => if off ≤ a ∧ a < off + data.length then data.getD (a - off) 0 else mem a

/-- The `n` words found at the offsets `off`, `off + 1`, ... -/
def load (mem : Nat → Nat) (off n : Nat) : List Nat :=
  (List.range n).map (fun i => mem (off + i))

/-- Modelled from the spec: the external protocol engine (`libmelcli` and the
controller behind it, neither part of the repository) as a D-register memory.
The engine state is the content of the D registers by offset; `batch_write`
on a D address stores word `i` at `offset + i` and `batch_read` on a D address
returns the stored words; sessions always open.  `read_fails off num` tells
which batched reads the engine fails (status `-1`, nothing read); an address
that is not a D address is answered with status `-1` as well. -/
def memoryEngine (read_fails : Nat → Int → Bool) : Engine (Nat → Nat) where
  new_context := fun mem _ _ _ => (some 1, mem)
  connect := fun mem _ => (0, mem)
  disconnect := fun mem _ => mem
  free_context := fun mem _ => mem
  batch_read := fun mem _ addr num =>
    match d_offset addr with
    | some off => if read_fails off num then (-1, [], mem) else (0, load mem off num.toNat, mem)
    | none => (-1, [], mem)
  batch_write := fun mem _ addr num data =>
    match d_offset addr with
    | some off => (0, store mem off (data.take num.toNat))
    | none => (-1, mem)

/-- Modelled from the spec: the ideal D-register memory, on which no call
fails and which nothing but `batch_write` changes. -/
def idealEngine : Engine (Nat → Nat) := memoryEngine (fun _ _ => false)

/-- A memory that holds `0` in every register. -/
def zeroMemory : Nat → Nat := fun _ => 0

/-! ## The integrity check of `test_scattered_access.cpp` -/

/-- The lines the integrity check prints when it finds a problem. -/
inductive Report
  /-- "Sequential data size mismatch: expected 1000, got ..." -/
  | sequential_size (got : Nat)
  /-- "Size mismatch in scattered group ..." -/
  | group_size (i : Nat)
  /-- "Sequential data index out of bounds at ..." -/
  | index_out_of_bounds (sequential_index : Nat)
  /-- "Data mismatch in ... at offset ...: scattered=..., sequential=..." -/
  | data_mismatch (i j scattered sequential : Nat)
  deriving DecidableEq, Repr

/-- The inner loop `for (int j = 0; j < 100; j++)` of the check of group `i`,
from offset `j` with `n` iterations left.  The result is `none` when the loop
would index a vector past its end; otherwise it tells whether the loop left
`integrity_ok` alone (`true`) or set it to `false`, and what it printed.  Both
problems the loop can find end it (`break`). -/
def compare_group (sequential_read_data group : List Nat) (i : Nat) :
    Nat → Nat → Option (Bool × List Report)
  | 0, _ => some (true, [])
  | n + 1, j =>
    let sequential_index := i * 100 + j
    if sequential_index ≥ sequential_read_data.length then
      some (false, [Report.index_out_of_bounds sequential_index])
    else
      match group[j]?, sequential_read_data[sequential_index]? with
      | some a, some b =>
        if a ≠ b then some (false, [Report.data_mismatch i j a b])
        else compare_group sequential_read_data group i n (j + 1)
      | _, _ => none

/-- The outer loop `for (int i = 0; i < 10; i++)` of the check, from group `i`
with `n` iterations left: a group whose size is not 100 is reported and
skipped (`continue`), any other group goes through the inner loop, and the
loop goes on to the next group in either case. -/
def compare_groups (sequential_read_data : List Nat) (scattered_read_data : List (List Nat)) :
    Nat → Nat → Option (Bool × List Report)
  | 0, _ => some (true, [])
  | n + 1, i =>
    match scattered_read_data[i]? with
    | none => none
    | some group =>
      let here :=
        if group.length ≠ 100 then some (false, [Report.group_size i])
        else compare_group sequential_read_data group i 100 0
      match here, compare_groups sequential_read_data scattered_read_data n (i + 1) with
      | some (ok1, r1), some (ok2, r2) => some (ok1 && ok2, r1 ++ r2)
      | _, _ => none

/-- The data integrity check of `main`: the final `integrity_ok` and the
reports printed, or `none` when the check would index a vector past its
end. -/
def integrity_check (sequential_read_data : List Nat)
    (scattered_read_data : List (List Nat)) : Option (Bool × List Report) :=
  let first : Bool × List Report :=
    if sequential_read_data.length ≠ 1000 then
      (false, [Report.sequential_size sequential_read_data.length])
    else (true, [])
  match compare_groups sequential_read_data scattered_read_data 10 0 with
  | some (ok, reports) => some (first.1 && ok, first.2 ++ reports)
  | none => none

/-- Whether a report is a data-mismatch report. -/
def Report.isDataMismatch : Report → Bool
  | .data_mismatch _ _ _ _ => true
  | _ => false

/-- Number of data-mismatch reports among the reports. -/
def mismatchReports (reports : List Report) : Nat := reports.countP Report.isDataMismatch

/-- Whether `group[j]` and `sequential[100 i + j]` both exist and differ. -/
def mismatchAt (sequential_read_data group : List Nat) (i j : Nat) : Bool :=
  match group[j]?, sequential_read_data[i * 100 + j]? with
  | some a, some b => a != b
  | _, _ => false

/-- Number of pairs `(k, j)`, `k < 10`, `j < 100`, at which
`scattered[k][j]` differs from `sequential[100 k + j]`. -/
def mismatchPairs (sequential_read_data : List Nat) (scattered_read_data : List (List Nat)) :
    Nat :=
  ((List.range 10).map (fun k =>
    (List.range 100).countP (fun j =>
      mismatchAt sequential_read_data (scattered_read_data.getD k []) k j))).sum

/-- Whether group `k` has size 100 and differs from the sequential result at
some offset. -/
def groupHasMismatch (sequential_read_data : List Nat)
    (scattered_read_data : List (List Nat)) (k : Nat) : Bool :=
  decide ((scattered_read_data.getD k []).length = 100) &&
    (List.range 100).any (fun j =>
      mismatchAt sequential_read_data (scattered_read_data.getD k []) k j)

/-- A sequential result of 1000 zeros. -/
def zeroSequential : List Nat := List.replicate 1000 0

/-- Ten scattered groups of 100 zeros each. -/
def zeroGroups : List (List Nat) := List.replicate 10 (List.replicate 100 0)

/-- Ten scattered groups of 100 words: the first holds ones, the others
zeros. -/
def onesThenZeroGroups : List (List Nat) :=
  List.replicate 100 1 :: List.replicate 9 (List.replicate 100 0)

/-! ## The passes of one cycle of `test_scattered_access.cpp` -/

/-- `std::vector<uint16_t>::resize(n, value)`. -/
def resize_fill (data : List Nat) (n value : Nat) : List Nat :=
  data.take n ++ List.replicate (n - data.length) value

/-- The loop of the scattered write pass over the remaining entries of
`scattered_pattern`: group `pattern_idx` is written with the 100 words of
`test_data` from index `pattern_idx * 100` on, in one batched write; the
result of the write is only logged.  `none` when an index or an iterator
leaves its vector. -/
def scattered_write_loop (M : Engine E) (test_data : List Nat) :
    List Nat → State E → Option (State E)
  | [], st => some st
  | pattern_idx :: rest, st =>
    match register_groups[pattern_idx]? with
    | none => none
    | some group =>
      if (pattern_idx + 1) * 100 ≤ test_data.length then
        let group_data := (test_data.drop (pattern_idx * 100)).take 100
        scattered_write_loop M test_data rest
          (write_batch_d_registers M st (some group.get_address) 100 group_data).2
      else none

/-- The scattered write pass of a cycle. -/
def scattered_write_pass (M : Engine E) (st : State E) (test_data : List Nat) :
    Option (State E) :=
  scattered_write_loop M test_data scattered_pattern st

/-- The loop `for (int i = ...; i <= 1000; i++)` of the sequential write pass,
at `i` with `n` iterations left: register `D<i>` is written with
`test_data[i - 1]`; the result of the write is only logged.  `none` when the
index leaves `test_data`. -/
def sequential_write_loop (M : Engine E) (test_data : List Nat) :
    Nat → Int → State E → Option (State E)
  | 0, _, st => some st
  | n + 1, i, st =>
    match test_data[(i - 1).toNat]? with
    | none => none
    | some value =>
      sequential_write_loop M test_data n (i + 1)
        (write_batch_d_register M st (some ("D" ++ to_string i)) value).2

/-- The sequential write pass of a cycle: `D1` to `D1000`. -/
def sequential_write_pass (M : Engine E) (st : State E) (test_data : List Nat) :
    Option (State E) :=
  sequential_write_loop M test_data 1000 1 st

/-- The loop of the scattered read pass over the remaining entries of
`scattered_pattern`: group `pattern_idx` is read in one batched read into
`scattered_read_data[pattern_idx]`, which is resized to 100 zero-filled words
when the read fails.  `none` when an index leaves its vector or an exception
leaves the read. -/
def scattered_read_loop (M : Engine E) :
    List Nat → State E → List (List Nat) → Option (State E × List (List Nat))
  | [], st, scattered_read_data => some (st, scattered_read_data)
  | pattern_idx :: rest, st, scattered_read_data =>
    match register_groups[pattern_idx]?, scattered_read_data[pattern_idx]? with
    | some group, some slot =>
      match read_batch_d_registers M st (some group.get_address) 100 slot with
      | (Outcome.returned true, data, st1) =>
        scattered_read_loop M rest st1 (scattered_read_data.set pattern_idx data)
      | (Outcome.returned false, data, st1) =>
        scattered_read_loop M rest st1
          (scattered_read_data.set pattern_idx (resize_fill data 100 0))
      | (Outcome.threw, _, _) => none
    | _, _ => none

/-- The scattered read pass of a cycle, on ten empty vectors. -/
def scattered_read_pass (M : Engine E) (st : State E) :
    Option (State E × List (List Nat)) :=
  scattered_read_loop M scattered_pattern st (List.replicate 10 [])

/-- The loop `for (int i = ...; i <= 1000; i++)` of the sequential read pass,
at `i` with `n` iterations left: the word read from `D<i>`, or `0` when the
read fails, is appended to `sequential_read_data`.  (The local `value` is not
initialised in the source and is not looked at after a failed read; the model
passes `0`.) -/
def sequential_read_loop (M : Engine E) : Nat → Int → State E → List Nat → State E × List Nat
  | 0, _, st, sequential_read_data => (st, sequential_read_data)
  | n + 1, i, st, sequential_read_data =>
    let r := read_batch_d_register M st (some ("D" ++ to_string i)) 0
    if r.1 = true then
      sequential_read_loop M n (i + 1) r.2.2 (sequential_read_data ++ [r.2.1])
    else
      sequential_read_loop M n (i + 1) r.2.2 (sequential_read_data ++ [0])

/-- The sequential read pass of a cycle: `D1` to `D1000`. -/
def sequential_read_pass (M : Engine E) (st : State E) : State E × List Nat :=
  sequential_read_loop M 1000 1 st []

/-- What a cycle leaves behind. -/
structure CycleResult (E : Type) where
  st : State E
  scattered_read_data : List (List Nat)
  sequential_read_data : List Nat
  integrity_ok : Bool
  reports : List Report

/-- The second half of a cycle: the scattered read pass, the sequential read
pass and the integrity check. -/
def read_and_check (M : Engine E) (st : State E) : Option (CycleResult E) :=
  match scattered_read_pass M st with
  | none => none
  | some (st1, scattered_read_data) =>
    match integrity_check (sequential_read_pass M st1).2 scattered_read_data with
    | none => none
    | some (integrity_ok, reports) =>
      some { st := (sequential_read_pass M st1).1,
             scattered_read_data := scattered_read_data,
             sequential_read_data := (sequential_read_pass M st1).2,
             integrity_ok := integrity_ok,
             reports := reports }

/-- One cycle of the `while (true)` loop of `main`, for the test data drawn in
it: scattered write pass, sequential write pass, then the read passes and the
integrity check.  (Timing, printing and the CSV row are left out.) -/
def run_cycle (M : Engine E) (st : State E) (test_data : List Nat) :
    Option (CycleResult E) :=
  match scattered_write_pass M st test_data with
  | none => none
  | some st1 =>
    match sequential_write_pass M st1 test_data with
    | none => none
    | some st2 => read_and_check M st2

/-- Modelled from the spec: the D-register memory whose batched read of the
100 words of group `bad` (at `D<100 bad + 1>`) fails, while every other call
succeeds. -/
def faultyEngine (bad : Nat) : Engine (Nat → Nat) :=
  memoryEngine (fun off num => decide (off = 100 * bad + 1) && decide (num = 100))

/-- Memory after `D1` to `D1000` have been given the words of `test_data`:
register `D<a>` holds `test_data[a - 1]`, every other register is as in
`mem`. -/
def written (test_data : List Nat) (mem : Nat → Nat) : Nat → Nat :=
  fun a => if 1 ≤ a ∧ a ≤ 1000 then test_data.getD (a - 1) 0 else mem a

/-- The events of the scattered write pass on a memory engine: for each entry
`k` of the pattern, the batched write of `test_data[100k .. 100k+100)` to
`D<100k+1>` under the mutex. -/
def scatteredWriteEvents (g : Option Handle) (test_data : List Nat) (ks : List Nat) :
    List Event :=
  ks.flatMap (fun k =>
    [Event.lock,
     Event.batch_write g (some ("D" ++ to_string (100 * (k : Int) + 1))) 100
       ((test_data.drop (k * 100)).take 100) 0,
     Event.unlock])

/-- What the scattered read pass leaves in the slot of group `k` on a memory
engine: 100 zeros when the batched read fails, the 100 words of the group
otherwise. -/
def groupRead (f : Nat → Int → Bool) (mem : Nat → Nat) (k : Nat) (slot : List Nat) :
    List Nat :=
  if f (100 * k + 1) 100 = true then resize_fill slot 100 0 else load mem (100 * k + 1) 100

/-- A client of the benchmark on a memory that holds `0` everywhere. -/
def memoryClient : State (Nat → Nat) :=
  PlcClient "192.168.6.10" 502 0 zeroMemory

/-- Test data of a cycle in which every draw is `7`. -/
def sevensTestData : List Nat := List.replicate 1000 7

/-- Test data of a cycle in which every draw is `0`. -/
def zeroTestData : List Nat := List.replicate 1000 0

/-! ## Facts about the matcher -/

theorem plusLoop_eol (p : Char → Bool) (s : List Char) :
    plusLoop p (fun s' => matchNodes [Node.eol] false s') s = true ↔
      s ≠ [] ∧ ∀ c ∈ s, p c = true := by
  induction s with
  | nil => simp [plusLoop]
  | cons c s ih =>
    rw [plusLoop, Bool.and_eq_true, Bool.or_eq_true, ih]
    cases s with
    | nil => simp [matchNodes]
    | cons d t => simp [matchNodes]

theorem matchNodes_plus_eol (a : Atom) (b : Bool) (s : List Char) :
    matchNodes [Node.plus a, Node.eol] b s = true ↔
      s ≠ [] ∧ ∀ c ∈ s, a.test c = true :=
  plusLoop_eol a.test s

theorem matchNodes_letter_plus (l : Char) (a : Atom) (s : List Char) :
    matchNodes [Node.bol, Node.one (Atom.lit l), Node.plus a, Node.eol] true s = true ↔
      ∃ ds : List Char, ds ≠ [] ∧ (∀ c ∈ ds, a.test c = true) ∧ s = l :: ds := by
  cases s with
  | nil => simp [matchNodes]
  | cons c t =>
    show (true && ((c == l) && matchNodes [Node.plus a, Node.eol] false t)) = true ↔ _
    rw [Bool.true_and, Bool.and_eq_true, matchNodes_plus_eol, beq_iff_eq]
    constructor
    · rintro ⟨rfl, h1, h2⟩
      exact ⟨t, h1, h2, rfl⟩
    · rintro ⟨ds, h1, h2, h3⟩
      injection h3 with h4 h5
      subst h4 h5
      exact ⟨rfl, h1, h2⟩

theorem matchNodes_two_letters_plus (l m : Char) (a : Atom) (s : List Char) :
    matchNodes [Node.bol, Node.one (Atom.lit l), Node.one (Atom.lit m), Node.plus a,
        Node.eol] true s = true ↔
      ∃ ds : List Char, ds ≠ [] ∧ (∀ c ∈ ds, a.test c = true) ∧ s = l :: m :: ds := by
  cases s with
  | nil => simp [matchNodes]
  | cons c t =>
    cases t with
    | nil => simp [matchNodes]
    | cons d u =>
      show (true && ((c == l) && ((d == m) &&
        matchNodes [Node.plus a, Node.eol] false u))) = true ↔ _
      rw [Bool.true_and, Bool.and_eq_true, Bool.and_eq_true, matchNodes_plus_eol,
        beq_iff_eq, beq_iff_eq]
      constructor
      · rintro ⟨rfl, rfl, h1, h2⟩
        exact ⟨u, h1, h2, rfl⟩
      · rintro ⟨ds, h1, h2, h3⟩
        injection h3 with h4 h5
        injection h5 with h6 h7
        subst h4 h6 h7
        exact ⟨rfl, rfl, h1, h2⟩

theorem char_eq_ofNat (x : Char) : x = Char.ofNat x.toNat := by
  simp

theorem digit_test_iff (x : Char) : Atom.digit.test x = true ↔ isDecimalDigit x := by
  simp only [Atom.test, inRange, Bool.and_eq_true, decide_eq_true_eq, isDecimalDigit]
  constructor
  · rintro ⟨h1, h2⟩
    have hx := char_eq_ofNat x
    generalize x.toNat = n at h1 h2 hx
    subst hx
    have h1' : 48 ≤ n := h1
    have h2' : n ≤ 57 := h2
    interval_cases n <;> decide
  · intro h
    have h' : x ∈ ['0', '1', '2', '3', '4', '5', '6', '7', '8', '9'] := h
    simp only [List.mem_cons, List.mem_singleton, List.not_mem_nil, or_false] at h'
    rcases h' with h | h | h | h | h | h | h | h | h | h <;> subst h <;> decide

theorem hex_test_iff (x : Char) : hexClass.test x = true ↔ isHexDigit x := by
  simp only [hexClass, Atom.test, inRange, List.any_cons, List.any_nil, Bool.or_false,
    Bool.or_eq_true, Bool.and_eq_true, decide_eq_true_eq, isHexDigit]
  constructor
  · intro h
    have hx := char_eq_ofNat x
    generalize x.toNat = n at h hx
    subst hx
    have h' : (48 ≤ n ∧ n ≤ 57) ∨ (65 ≤ n ∧ n ≤ 70) ∨ (97 ≤ n ∧ n ≤ 102) := h
    rcases h' with ⟨h1, h2⟩ | ⟨h1, h2⟩ | ⟨h1, h2⟩ <;> interval_cases n <;> decide
  · intro h
    have h' : x ∈ ['0', '1', '2', '3', '4', '5', '6', '7', '8', '9', 'A', 'B', 'C', 'D',
        'E', 'F', 'a', 'b', 'c', 'd', 'e', 'f'] := h
    simp only [List.mem_cons, List.mem_singleton, List.not_mem_nil, or_false] at h'
    rcases h' with h | h | h | h | h | h | h | h | h | h | h | h | h | h | h | h | h | h |
      h | h | h | h <;> subst h <;> decide

/-! ## The patterns and the grammar rules -/

theorem letter_pattern_iff (l : Char) (a : Atom) (alphabet : Char → Prop)
    (h : ∀ x, a.test x = true ↔ alphabet x) (s : String) :
    regex_match s [Node.bol, Node.one (Atom.lit l), Node.plus a, Node.eol] = true ↔
      PrefixThenDigits (String.mk [l]) alphabet s := by
  unfold regex_match PrefixThenDigits
  rw [matchNodes_letter_plus]
  constructor
  · rintro ⟨ds, h1, h2, h3⟩
    exact ⟨ds, h1, fun c hc => (h c).1 (h2 c hc), h3⟩
  · rintro ⟨ds, h1, h2, h3⟩
    exact ⟨ds, h1, fun c hc => (h c).2 (h2 c hc), h3⟩

theorem two_letter_pattern_iff (l m : Char) (a : Atom) (alphabet : Char → Prop)
    (h : ∀ x, a.test x = true ↔ alphabet x) (s : String) :
    regex_match s [Node.bol, Node.one (Atom.lit l), Node.one (Atom.lit m), Node.plus a,
        Node.eol] = true ↔
      PrefixThenDigits (String.mk [l, m]) alphabet s := by
  unfold regex_match PrefixThenDigits
  rw [matchNodes_two_letters_plus]
  constructor
  · rintro ⟨ds, h1, h2, h3⟩
    exact ⟨ds, h1, fun c hc => (h c).1 (h2 c hc), h3⟩
  · rintro ⟨ds, h1, h2, h3⟩
    exact ⟨ds, h1, fun c hc => (h c).2 (h2 c hc), h3⟩

theorem d_pattern_iff (s : String) :
    regex_match s d_register_pattern_ = true ↔ MatchesRule RegisterType.D_REGISTER s :=
  letter_pattern_iff 'D' Atom.digit isDecimalDigit digit_test_iff s

theorem x_pattern_iff (s : String) :
    regex_match s x_register_pattern_ = true ↔ MatchesRule RegisterType.X_REGISTER s :=
  letter_pattern_iff 'X' hexClass isHexDigit hex_test_iff s

theorem y_pattern_iff (s : String) :
    regex_match s y_register_pattern_ = true ↔ MatchesRule RegisterType.Y_REGISTER s :=
  letter_pattern_iff 'Y' hexClass isHexDigit hex_test_iff s

theorem m_pattern_iff (s : String) :
    regex_match s m_register_pattern_ = true ↔ MatchesRule RegisterType.M_REGISTER s :=
  letter_pattern_iff 'M' Atom.digit isDecimalDigit digit_test_iff s

theorem b_pattern_iff (s : String) :
    regex_match s b_register_pattern_ = true ↔ MatchesRule RegisterType.B_REGISTER s :=
  letter_pattern_iff 'B' hexClass isHexDigit hex_test_iff s

theorem sd_pattern_iff (s : String) :
    regex_match s sd_register_pattern_ = true ↔ MatchesRule RegisterType.SD_REGISTER s :=
  two_letter_pattern_iff 'S' 'D' hexClass isHexDigit hex_test_iff s

theorem prefixThenDigits_head (l : Char) (rest : List Char) (alphabet : Char → Prop)
    (s : String) (h : PrefixThenDigits (String.mk (l :: rest)) alphabet s) :
    s.toList.head? = some l := by
  obtain ⟨ds, -, -, h3⟩ := h
  rw [h3]
  rfl

theorem rule_head (K : RegisterType) (s : String) (h : MatchesRule K s) :
    s.toList.head? = ruleLetter K ∧ K ≠ RegisterType.UNKNOWN := by
  cases K
  case UNKNOWN => exact absurd h (by simp [MatchesRule])
  all_goals exact ⟨prefixThenDigits_head _ _ _ s h, by decide⟩

theorem rules_exclusive (K K' : RegisterType) (s : String) (h : MatchesRule K s)
    (h' : MatchesRule K' s) : K = K' := by
  have e := (rule_head K s h).1.symm.trans (rule_head K' s h').1
  have n := (rule_head K s h).2
  have n' := (rule_head K' s h').2
  revert e n n'
  cases K <;> cases K' <;> simp [ruleLetter]

theorem get_register_type_of_rule (K : RegisterType) (s : String) (h : MatchesRule K s) :
    get_register_type s = K := by
  have ex : ∀ K', MatchesRule K' s → K' = K := fun K' h' => rules_exclusive K' K s h' h
  unfold get_register_type
  split_ifs with h1 h2 h3 h4 h5 h6
  · exact ex _ ((d_pattern_iff s).1 h1)
  · exact ex _ ((x_pattern_iff s).1 h2)
  · exact ex _ ((y_pattern_iff s).1 h3)
  · exact ex _ ((m_pattern_iff s).1 h4)
  · exact ex _ ((b_pattern_iff s).1 h5)
  · exact ex _ ((sd_pattern_iff s).1 h6)
  · exfalso
    cases K
    · exact h1 ((d_pattern_iff s).2 h)
    · exact h2 ((x_pattern_iff s).2 h)
    · exact h3 ((y_pattern_iff s).2 h)
    · exact h4 ((m_pattern_iff s).2 h)
    · exact h5 ((b_pattern_iff s).2 h)
    · exact h6 ((sd_pattern_iff s).2 h)
    · exact h

theorem rule_of_get_register_type (s : String)
    (h : get_register_type s ≠ RegisterType.UNKNOWN) :
    MatchesRule (get_register_type s) s := by
  unfold get_register_type at h ⊢
  split_ifs with h1 h2 h3 h4 h5 h6
  · exact (d_pattern_iff s).1 h1
  · exact (x_pattern_iff s).1 h2
  · exact (y_pattern_iff s).1 h3
  · exact (m_pattern_iff s).1 h4
  · exact (b_pattern_iff s).1 h5
  · exact (sd_pattern_iff s).1 h6
  · simp [h1, h2, h3, h4, h5, h6] at h

theorem get_register_type_empty : get_register_type "" = RegisterType.UNKNOWN := by
  decide

/-! ## The classifier: claims C1 and C2 -/

/-- C1: for every input (the null pointer, the empty string, or any string),
`is_valid_register_address` and `validate_register_address` return `true` if
and only if `get_address_type` returns a kind other than `UNKNOWN`; for the
null pointer and for `""` validation is `false` and the kind is `UNKNOWN`. -/
theorem validate_iff_address_type_known :
    (∀ addr : Option String,
      (validate_register_address addr = true ↔
        get_address_type addr ≠ RegisterType.UNKNOWN) ∧
      (is_valid_register_address addr = true ↔
        get_address_type addr ≠ RegisterType.UNKNOWN)) ∧
    validate_register_address none = false ∧
    is_valid_register_address none = false ∧
    get_address_type none = RegisterType.UNKNOWN ∧
    validate_register_address (some "") = false ∧
    is_valid_register_address (some "") = false ∧
    get_address_type (some "") = RegisterType.UNKNOWN := by
  have key : ∀ addr : Option String, validate_register_address addr = true ↔
      get_address_type addr ≠ RegisterType.UNKNOWN := by
    intro addr
    cases addr with
    | none => simp [validate_register_address, get_address_type]
    | some a =>
      unfold validate_register_address get_address_type
      by_cases h0 : strlen a = 0
      · have ha : a = "" := by
          apply String.ext
          exact List.length_eq_zero.mp h0
        subst ha
        simp [strlen, get_register_type_empty]
      · simp [h0]
  refine ⟨fun addr => ⟨key addr, key addr⟩, rfl, rfl, rfl, ?_, ?_, ?_⟩ <;> decide

/-- C2: for every string `s` and kind `K` other than `UNKNOWN`,
`get_register_type s = K` exactly when `s` matches the grammar rule of `K` and
the rule of no other kind (`D`/`M`: the letter followed by one or more decimal
digits; `X`/`Y`/`B`: the letter followed by one or more hex digits; `SD`: `SD`
followed by one or more hex digits); the result is `UNKNOWN` exactly when `s`
matches none of the six rules; no string matches two rules, and no string is
matched by two of the six patterns, so the order of the checks does not decide
the result; and the boundary cases `"D0"`, `"D100"`, `"X"`, `"XFF"`, `"SD10"`,
`"M12"`, `""`, `"d5"` classify as the specification lists them. -/
theorem get_register_type_iff_grammar :
    (∀ (s : String) (K : RegisterType), K ≠ RegisterType.UNKNOWN →
      (get_register_type s = K ↔
        MatchesRule K s ∧ ∀ K', K' ≠ K → ¬ MatchesRule K' s)) ∧
    (∀ s : String, get_register_type s = RegisterType.UNKNOWN ↔
      ∀ K, ¬ MatchesRule K s) ∧
    (∀ (s : String) (K K' : RegisterType),
      MatchesRule K s → MatchesRule K' s → K = K') ∧
    (∀ s : String,
      [regex_match s d_register_pattern_, regex_match s x_register_pattern_,
        regex_match s y_register_pattern_, regex_match s m_register_pattern_,
        regex_match s b_register_pattern_, regex_match s sd_register_pattern_].count true
        ≤ 1) ∧
    get_register_type "D0" = RegisterType.D_REGISTER ∧
    get_register_type "D100" = RegisterType.D_REGISTER ∧
    get_register_type "X" = RegisterType.UNKNOWN ∧
    get_register_type "XFF" = RegisterType.X_REGISTER ∧
    get_register_type "SD10" = RegisterType.SD_REGISTER ∧
    get_register_type "M12" = RegisterType.M_REGISTER ∧
    get_register_type "" = RegisterType.UNKNOWN ∧
    get_register_type "d5" = RegisterType.UNKNOWN := by
  refine ⟨?_, ?_, fun s K K' => rules_exclusive K K' s, ?_, ?_, ?_, ?_, ?_, ?_, ?_, ?_, ?_⟩
  · intro s K hK
    constructor
    · intro h
      have hm : MatchesRule K s := by
        have := rule_of_get_register_type s (by rw [h]; exact hK)
        rwa [h] at this
      exact ⟨hm, fun K' hne hm' => hne (rules_exclusive K' K s hm' hm)⟩
    · rintro ⟨hm, -⟩
      exact get_register_type_of_rule K s hm
  · intro s
    constructor
    · intro h K hm
      have := get_register_type_of_rule K s hm
      rw [h] at this
      rw [← this] at hm
      exact hm
    · intro h
      by_contra hne
      exact h _ (rule_of_get_register_type s hne)
  · intro s
    have hd := d_pattern_iff s
    have hx := x_pattern_iff s
    have hy := y_pattern_iff s
    have hm := m_pattern_iff s
    have hb := b_pattern_iff s
    have hs := sd_pattern_iff s
    have ex := fun K K' => rules_exclusive K K' s
    cases e1 : regex_match s d_register_pattern_ <;>
    cases e2 : regex_match s x_register_pattern_ <;>
    cases e3 : regex_match s y_register_pattern_ <;>
    cases e4 : regex_match s m_register_pattern_ <;>
    cases e5 : regex_match s b_register_pattern_ <;>
    cases e6 : regex_match s sd_register_pattern_ <;>
    first
    | decide
    | (exfalso
       rw [e1] at hd; rw [e2] at hx; rw [e3] at hy; rw [e4] at hm; rw [e5] at hb
       rw [e6] at hs
       simp only [true_iff, Bool.false_eq_true, false_iff] at hd hx hy hm hb hs
       first
       | exact absurd (ex _ _ hd hx) (by decide)
       | exact absurd (ex _ _ hd hy) (by decide)
       | exact absurd (ex _ _ hd hm) (by decide)
       | exact absurd (ex _ _ hd hb) (by decide)
       | exact absurd (ex _ _ hd hs) (by decide)
       | exact absurd (ex _ _ hx hy) (by decide)
       | exact absurd (ex _ _ hx hm) (by decide)
       | exact absurd (ex _ _ hx hb) (by decide)
       | exact absurd (ex _ _ hx hs) (by decide)
       | exact absurd (ex _ _ hy hm) (by decide)
       | exact absurd (ex _ _ hy hb) (by decide)
       | exact absurd (ex _ _ hy hs) (by decide)
       | exact absurd (ex _ _ hm hb) (by decide)
       | exact absurd (ex _ _ hm hs) (by decide)
       | exact absurd (ex _ _ hb hs) (by decide))
  all_goals decide

/-! ## The batched operations: claims C3 to C7 -/

theorem toSizeT_of_nonneg (n : Int) (h0 : 0 ≤ n) (h : n < 2 ^ 31) : toSizeT n = n.toNat := by
  unfold toSizeT
  rw [Int.emod_eq_of_lt h0 (by omega)]

theorem resize_length (data : List Nat) (n : Nat) (out : List Nat)
    (h : resize data n = some out) : out.length = n := by
  unfold resize at h
  split_ifs at h
  injection h with h
  subst h
  simp only [List.length_append, List.length_take, List.length_replicate]
  omega

theorem resize_of_le (data : List Nat) (n : Nat) (h : n ≤ vector_max_size) :
    resize data n = some (data.take n ++ List.replicate (n - data.length) 0) := by
  unfold resize
  rw [if_neg (by omega)]

theorem copy_words_length (r : List Nat) (n : Nat) (data : List Nat) :
    (copy_words r n data).length = data.length := by
  unfold copy_words
  induction n with
  | zero => simp
  | succ k ih =>
    rw [List.range_succ, List.foldl_append, List.foldl_cons, List.foldl_nil, List.length_set]
    exact ih

theorem copy_words_getElem? (r : List Nat) (n : Nat) (data : List Nat) (i : Nat) :
    (copy_words r n data)[i]? =
      if i < n ∧ i < data.length then some (r.getD i 0) else data[i]? := by
  induction n with
  | zero => simp [copy_words]
  | succ k ih =>
    have hlen := copy_words_length r k data
    unfold copy_words at ih hlen ⊢
    rw [List.range_succ, List.foldl_append]
    simp only [List.foldl_cons, List.foldl_nil]
    rw [List.getElem?_set]
    by_cases hik : k = i
    · subst hik
      simp only [if_true, hlen]
      by_cases hd : k < data.length
      · simp [hd]
      · simp only [hd, if_false, and_false]
        rw [List.getElem?_eq_none (by omega)]
    · rw [if_neg hik, ih]
      by_cases hd : i < data.length
      · have : (i < k + 1) ↔ (i < k) := by omega
        simp [hd, this]
      · simp [hd]

theorem read_registers_of_success (M : Engine E) (st : State E) (addr : Option String)
    (n : Int) (data r : List Nat) (e' : E)
    (hv : validate_register_address addr = true) (hn0 : 0 ≤ n) (hn : n < 2 ^ 31)
    (hr : M.batch_read st.eng st.g_ctx_ addr n = (0, r, e')) :
    read_batch_d_registers M st addr n data =
      (Outcome.returned true,
        copy_words r n.toNat (data.take n.toNat ++ List.replicate (n.toNat - data.length) 0),
        { st with eng := e', trace := st.trace ++
            [Event.lock, Event.batch_read st.g_ctx_ addr n 0 r, Event.free, Event.unlock] }) := by
  have hmax : n.toNat ≤ vector_max_size := by
    have : n.toNat < 2 ^ 31 := by omega
    have : (2 : Nat) ^ 31 ≤ vector_max_size := by decide
    omega
  simp [read_batch_d_registers, hv, melcli_batch_read, emit, hr,
    toSizeT_of_nonneg n hn0 hn, resize_of_le _ _ hmax]

/-- C3: for every address, every count `n` (an `int`) and every payload whose
length is less than `n`, `write_batch_d_registers` returns failure and leaves
the engine state and the event trace as they were: no call of the engine's
`batch_write`, nor any other engine call, is made. -/
theorem write_short_payload_no_engine_call (M : Engine E) (st : State E)
    (addr : Option String) (n : Int) (payload : List Nat) (hn : IsCInt n)
    (hlen : (payload.length : Int) < n) :
    (write_batch_d_registers M st addr n payload).1 = false ∧
    (write_batch_d_registers M st addr n payload).2 = st ∧
    batchWriteCalls (write_batch_d_registers M st addr n payload).2.trace =
      batchWriteCalls st.trace ∧
    engineCalls (write_batch_d_registers M st addr n payload).2.trace =
      engineCalls st.trace := by
  have h0 : 0 ≤ n := by omega
  have hs : payload.length < toSizeT n := by
    rw [toSizeT_of_nonneg n h0 hn.2]
    omega
  have key : write_batch_d_registers M st addr n payload = (false, st) := by
    unfold write_batch_d_registers
    split_ifs <;> rfl
  rw [key]
  exact ⟨rfl, rfl, rfl, rfl⟩

/-- Witness of C3: three words requested on `D1` with a payload of two. -/
theorem write_short_payload_no_engine_call_witness :
    IsCInt 3 ∧ ((([1, 2] : List Nat).length : Int) < 3) ∧
    (write_batch_d_registers doubleEngine (freshClient okDouble) (some "D1") 3 [1, 2]).1
      = false ∧
    (write_batch_d_registers doubleEngine (freshClient okDouble) (some "D1") 3 [1, 2]).2
      = freshClient okDouble :=
  ⟨by decide, by decide,
    (write_short_payload_no_engine_call doubleEngine (freshClient okDouble) (some "D1") 3
      [1, 2] (by decide) (by decide)).1,
    (write_short_payload_no_engine_call doubleEngine (freshClient okDouble) (some "D1") 3
      [1, 2] (by decide) (by decide)).2.1⟩

/-- C4: for every address that fails validation, each of
`read_batch_d_register`, `read_batch_d_registers`, `write_batch_d_register`
and `write_batch_d_registers` returns failure, leaves the engine state and the
event trace as they were (no engine call), and leaves the caller's output
argument unchanged. -/
theorem invalid_address_no_engine_call (M : Engine E) (st : State E)
    (addr : Option String) (hv : validate_register_address addr = false)
    (x : Nat) (n : Int) (v : List Nat) :
    read_batch_d_register M st addr x = (false, x, st) ∧
    read_batch_d_registers M st addr n v = (Outcome.returned false, v, st) ∧
    write_batch_d_register M st addr x = (false, st) ∧
    write_batch_d_registers M st addr n v = (false, st) := by
  simp [read_batch_d_register, read_batch_d_registers, write_batch_d_register,
    write_batch_d_registers, hv]

/-- Witness of C4: the addresses `Q1`, null and `""` on the test double. -/
theorem invalid_address_no_engine_call_witness :
    validate_register_address none = false ∧
    validate_register_address (some "") = false ∧
    validate_register_address (some "Q1") = false ∧
    read_batch_d_register doubleEngine (freshClient okDouble) (some "Q1") 5 =
      (false, 5, freshClient okDouble) ∧
    read_batch_d_registers doubleEngine (freshClient okDouble) (some "Q1") 1 [4, 4] =
      (Outcome.returned false, [4, 4], freshClient okDouble) ∧
    write_batch_d_register doubleEngine (freshClient okDouble) (some "Q1") 5 =
      (false, freshClient okDouble) ∧
    write_batch_d_registers doubleEngine (freshClient okDouble) (some "Q1") 1 [1] =
      (false, freshClient okDouble) ∧
    write_batch_d_registers doubleEngine (freshClient okDouble) none 1 [1] =
      (false, freshClient okDouble) ∧
    write_batch_d_registers doubleEngine (freshClient okDouble) (some "") 1 [1] =
      (false, freshClient okDouble) :=
  ⟨by decide, by decide, by decide,
    (invalid_address_no_engine_call doubleEngine (freshClient okDouble) (some "Q1")
      (by decide) 5 1 [4, 4]).1,
    (invalid_address_no_engine_call doubleEngine (freshClient okDouble) (some "Q1")
      (by decide) 5 1 [4, 4]).2.1,
    (invalid_address_no_engine_call doubleEngine (freshClient okDouble) (some "Q1")
      (by decide) 5 1 [1]).2.2.1,
    (invalid_address_no_engine_call doubleEngine (freshClient okDouble) (some "Q1")
      (by decide) 5 1 [1]).2.2.2,
    (invalid_address_no_engine_call doubleEngine (freshClient okDouble) none
      (by decide) 5 1 [1]).2.2.2,
    (invalid_address_no_engine_call doubleEngine (freshClient okDouble) (some "")
      (by decide) 5 1 [1]).2.2.2⟩

/-- C5: for every valid address, every count `n ≥ 0` (an `int`) and every
payload of length at least `n`, `write_batch_d_registers` makes exactly one
engine call, a `batch_write` with the arguments (handle, address, `n`, the
first `n` elements of the payload in order), between taking and releasing the
lock; the elements at index `n` and beyond are not transmitted and do not make
the call fail (the outcome is that of writing the first `n` elements alone);
and the operation returns success exactly when the engine call returns `0`. -/
theorem write_transmits_first_n (M : Engine E) (st : State E) (addr : Option String)
    (n : Int) (payload : List Nat) (hv : validate_register_address addr = true)
    (hn0 : 0 ≤ n) (hn : n < 2 ^ 31) (hlen : n ≤ (payload.length : Int)) :
    (write_batch_d_registers M st addr n payload).2.trace =
      st.trace ++ [Event.lock,
        Event.batch_write st.g_ctx_ addr n (payload.take n.toNat)
          (M.batch_write st.eng st.g_ctx_ addr n (payload.take n.toNat)).1,
        Event.unlock] ∧
    batchWriteCalls (write_batch_d_registers M st addr n payload).2.trace =
      batchWriteCalls st.trace + 1 ∧
    engineCalls (write_batch_d_registers M st addr n payload).2.trace =
      engineCalls st.trace + 1 ∧
    (write_batch_d_registers M st addr n payload).2.eng =
      (M.batch_write st.eng st.g_ctx_ addr n (payload.take n.toNat)).2 ∧
    ((write_batch_d_registers M st addr n payload).1 = true ↔
      (M.batch_write st.eng st.g_ctx_ addr n (payload.take n.toNat)).1 = 0) ∧
    (payload.take n.toNat).length = n.toNat ∧
    (∀ i, i < n.toNat → (payload.take n.toNat)[i]? = payload[i]?) ∧
    write_batch_d_registers M st addr n payload =
      write_batch_d_registers M st addr n (payload.take n.toNat) := by
  have hs : ¬ payload.length < toSizeT n := by
    rw [toSizeT_of_nonneg n hn0 hn]
    omega
  have htl : (payload.take n.toNat).length = n.toNat := by
    rw [List.length_take]
    omega
  have hs' : ¬ (payload.take n.toNat).length < toSizeT n := by
    rw [toSizeT_of_nonneg n hn0 hn, htl]
    omega
  have key : ∀ p : List Nat, ¬ p.length < toSizeT n →
      write_batch_d_registers M st addr n p =
        (decide ((M.batch_write st.eng st.g_ctx_ addr n (p.take n.toNat)).1 = 0),
          { st with
            eng := (M.batch_write st.eng st.g_ctx_ addr n (p.take n.toNat)).2
            trace := st.trace ++ [Event.lock,
              Event.batch_write st.g_ctx_ addr n (p.take n.toNat)
                (M.batch_write st.eng st.g_ctx_ addr n (p.take n.toNat)).1,
              Event.unlock] }) := by
    intro p hp
    unfold write_batch_d_registers
    rw [if_neg (by simp [hv]), if_neg hp]
    by_cases hrc : (M.batch_write st.eng st.g_ctx_ addr n (p.take n.toNat)).1 = 0
    · simp [melcli_batch_write, emit, hrc]
    · simp [melcli_batch_write, emit, hrc]
  refine ⟨?_, ?_, ?_, ?_, ?_, htl, ?_, ?_⟩
  · rw [key payload hs]
  · rw [key payload hs]
    simp [batchWriteCalls, List.countP_append, List.countP_cons, Event.isBatchWrite]
  · rw [key payload hs]
    simp [engineCalls, List.countP_append, List.countP_cons, Event.isEngineCall]
  · rw [key payload hs]
  · rw [key payload hs]
    simp
  · intro i hi
    rw [List.getElem?_take_of_lt hi]
  · rw [key payload hs, key _ hs', List.take_take, min_self]

/-- Witness of C5: two words requested on `D1` with a payload of three. -/
theorem write_transmits_first_n_witness :
    validate_register_address (some "D1") = true ∧ (0 : Int) ≤ 2 ∧ (2 : Int) < 2 ^ 31 ∧
    (2 : Int) ≤ (([1, 2, 3] : List Nat).length : Int) ∧
    (write_batch_d_registers doubleEngine (freshClient okDouble) (some "D1") 2
      [1, 2, 3]).2.trace =
      (freshClient okDouble).trace ++ [Event.lock,
        Event.batch_write (freshClient okDouble).g_ctx_ (some "D1") 2
          (([1, 2, 3] : List Nat).take (2 : Int).toNat)
          (doubleEngine.batch_write (freshClient okDouble).eng
            (freshClient okDouble).g_ctx_ (some "D1") 2
            (([1, 2, 3] : List Nat).take (2 : Int).toNat)).1,
        Event.unlock] :=
  ⟨by decide, by decide, by decide, by decide,
    (write_transmits_first_n doubleEngine (freshClient okDouble) (some "D1") 2 [1, 2, 3]
      (by decide) (by decide) (by decide) (by decide)).1⟩

/-- C6: for every valid address and count `n ≥ 0` (an `int`), when the
engine's `batch_read` succeeds with raw values `r` (at least `n` of them),
`read_batch_d_registers` returns success and the output vector has length
exactly `n` with `output[i] = r[i]` for every `i < n`, whatever the output
vector held before the call; and when the engine's one-word `batch_read`
succeeds with raw values `r1`, the scalar form `read_batch_d_register` returns
success and stores `r1[0]`. -/
theorem read_success_output (M : Engine E) (st : State E) (addr : Option String)
    (hv : validate_register_address addr = true) :
    (∀ (n : Int) (data r : List Nat) (e' : E), 0 ≤ n → n < 2 ^ 31 →
      M.batch_read st.eng st.g_ctx_ addr n = (0, r, e') → n.toNat ≤ r.length →
      (read_batch_d_registers M st addr n data).1 = Outcome.returned true ∧
      (read_batch_d_registers M st addr n data).2.1.length = n.toNat ∧
      (∀ i, i < n.toNat → (read_batch_d_registers M st addr n data).2.1[i]? = r[i]?) ∧
      (read_batch_d_registers M st addr n data).2.1 = r.take n.toNat) ∧
    (∀ (x : Nat) (r1 : List Nat) (e1 : E),
      M.batch_read st.eng st.g_ctx_ addr 1 = (0, r1, e1) → 1 ≤ r1.length →
      (read_batch_d_register M st addr x).1 = true ∧
      some (read_batch_d_register M st addr x).2.1 = r1[0]?) := by
  constructor
  · intro n data r e' hn0 hn hr hlen
    rw [read_registers_of_success M st addr n data r e' hv hn0 hn hr]
    dsimp only
    have hl : (data.take n.toNat ++ List.replicate (n.toNat - data.length) 0).length
        = n.toNat := by
      simp only [List.length_append, List.length_take, List.length_replicate]
      omega
    have hget : ∀ i, i < n.toNat →
        (copy_words r n.toNat
          (data.take n.toNat ++ List.replicate (n.toNat - data.length) 0))[i]? = r[i]? := by
      intro i hi
      rw [copy_words_getElem?, hl, if_pos ⟨hi, hi⟩]
      have : i < r.length := by omega
      simp [List.getD, List.getElem?_eq_getElem this]
    have hlen2 : (copy_words r n.toNat
          (data.take n.toNat ++ List.replicate (n.toNat - data.length) 0)).length
        = n.toNat := by
      rw [copy_words_length, hl]
    refine ⟨rfl, hlen2, hget, ?_⟩
    apply List.ext_getElem?
    intro i
    by_cases hi : i < n.toNat
    · rw [hget i hi, List.getElem?_take_of_lt hi]
    · rw [List.getElem?_eq_none (by omega), List.getElem?_eq_none]
      rw [List.length_take]
      omega
  · intro x r1 e1 hr1 hlen1
    cases r1 with
    | nil => simp at hlen1
    | cons a t => simp [read_batch_d_register, hv, melcli_batch_read, emit, hr1]

/-- Witness of C6: the test double answers `7, 8, 9`; three words are read into
a vector that held five, and one word into a scalar. -/
theorem read_success_output_witness :
    validate_register_address (some "D1") = true ∧
    (read_batch_d_registers doubleEngine (freshClient okDouble) (some "D1") 3
      [1, 1, 1, 1, 1]).1 = Outcome.returned true ∧
    (read_batch_d_registers doubleEngine (freshClient okDouble) (some "D1") 3
      [1, 1, 1, 1, 1]).2.1 = ([7, 8, 9] : List Nat).take (3 : Int).toNat ∧
    some (read_batch_d_register doubleEngine (freshClient okDouble) (some "D1") 0).2.1 =
      ([7, 8, 9] : List Nat)[0]? :=
  ⟨by decide,
    ((read_success_output doubleEngine (freshClient okDouble) (some "D1") (by decide)).1
      3 [1, 1, 1, 1, 1] [7, 8, 9] okDouble (by decide) (by decide) (by decide)
      (by decide)).1,
    ((read_success_output doubleEngine (freshClient okDouble) (some "D1") (by decide)).1
      3 [1, 1, 1, 1, 1] [7, 8, 9] okDouble (by decide) (by decide) (by decide)
      (by decide)).2.2.2,
    ((read_success_output doubleEngine (freshClient okDouble) (some "D1") (by decide)).2
      0 [7, 8, 9] okDouble (by decide) (by decide)).2⟩

/-- C7: for every valid address and count, when the engine's `batch_read`
returns a non-zero status, `read_batch_d_registers` returns failure and the
caller's vector is exactly what it was before the call (same elements, same
length); likewise, when the one-word `batch_read` returns a non-zero status,
`read_batch_d_register` returns failure and the caller's scalar is what it
was. -/
theorem read_failure_keeps_output (M : Engine E) (st : State E) (addr : Option String)
    (hv : validate_register_address addr = true) :
    (∀ (n : Int) (data : List Nat), (M.batch_read st.eng st.g_ctx_ addr n).1 ≠ 0 →
      (read_batch_d_registers M st addr n data).1 = Outcome.returned false ∧
      (read_batch_d_registers M st addr n data).2.1 = data) ∧
    (∀ x : Nat, (M.batch_read st.eng st.g_ctx_ addr 1).1 ≠ 0 →
      (read_batch_d_register M st addr x).1 = false ∧
      (read_batch_d_register M st addr x).2.1 = x) := by
  constructor
  · intro n data hr
    simp [read_batch_d_registers, hv, melcli_batch_read, emit, hr]
  · intro x hr1
    simp [read_batch_d_register, hv, melcli_batch_read, emit, hr1]

/-- Witness of C7: the test double fails every read. -/
theorem read_failure_keeps_output_witness :
    validate_register_address (some "D1") = true ∧
    (read_batch_d_registers doubleEngine (freshClient readFailDouble) (some "D1") 3
      [1, 1, 1, 1, 1]).1 = Outcome.returned false ∧
    (read_batch_d_registers doubleEngine (freshClient readFailDouble) (some "D1") 3
      [1, 1, 1, 1, 1]).2.1 = [1, 1, 1, 1, 1] ∧
    (read_batch_d_register doubleEngine (freshClient readFailDouble) (some "D1") 4).1
      = false ∧
    (read_batch_d_register doubleEngine (freshClient readFailDouble) (some "D1") 4).2.1
      = 4 :=
  ⟨by decide,
    ((read_failure_keeps_output doubleEngine (freshClient readFailDouble) (some "D1")
      (by decide)).1 3 [1, 1, 1, 1, 1] (by decide)).1,
    ((read_failure_keeps_output doubleEngine (freshClient readFailDouble) (some "D1")
      (by decide)).1 3 [1, 1, 1, 1, 1] (by decide)).2,
    ((read_failure_keeps_output doubleEngine (freshClient readFailDouble) (some "D1")
      (by decide)).2 4 (by decide)).1,
    ((read_failure_keeps_output doubleEngine (freshClient readFailDouble) (some "D1")
      (by decide)).2 4 (by decide)).2⟩

/-! ## The session lifecycle: claims C8 to C10 -/

theorem unfreed_snoc (tr : List Event) (ev : Event) :
    unfreed (tr ++ [ev]) = unfreedStep (unfreed tr) ev := by
  simp [unfreed, List.foldl_append]

theorem undisconnected_snoc (tr : List Event) (ev : Event) :
    undisconnected (tr ++ [ev]) = undisconnectedStep (undisconnected tr) ev := by
  simp [undisconnected, List.foldl_append]

theorem oneLiveHandle_nil : OneLiveHandle [] := by
  constructor
  · intro pre ev post h
    cases pre <;> simp at h
  · intro pre h
    rw [List.prefix_nil.mp h]
    simp [unfreed]

theorem oneLiveHandle_snoc (tr : List Event) (ev : Event) (h : OneLiveHandle tr)
    (hnew : ev.isNewContext = true → unfreed tr = [] ∧ undisconnected tr = [])
    (hlen : (unfreed (tr ++ [ev])).length ≤ 1) : OneLiveHandle (tr ++ [ev]) := by
  constructor
  · intro pre e post heq he
    rcases List.eq_nil_or_concat post with hp | ⟨post', x, hp⟩
    · subst hp
      have := List.append_inj' heq rfl
      obtain ⟨h1, h2⟩ := this
      injection h2 with h3
      subst h1 h3
      exact hnew he
    · rw [List.concat_eq_append] at hp
      subst hp
      have heq' : tr ++ [ev] = (pre ++ e :: post') ++ [x] := by
        rw [heq]; simp
      have := List.append_inj' heq' rfl
      exact h.1 pre e post' this.1 he
  · intro pre hpre
    rcases List.prefix_concat_iff.mp hpre with h1 | h1
    · rw [h1]; exact hlen
    · exact h.2 pre h1

theorem init_plc_eq (M : Engine E) (st : State E) :
    init_plc M st =
      (match (melcli_new_context M (teardown M st)).1 with
        | none =>
          (false, { (melcli_new_context M (teardown M st)).2 with g_ctx_ := none })
        | some ctx =>
          if (melcli_connect M { (melcli_new_context M (teardown M st)).2 with
              g_ctx_ := some ctx } ctx).1 ≠ 0
          then (false, (melcli_connect M { (melcli_new_context M (teardown M st)).2 with
              g_ctx_ := some ctx } ctx).2)
          else (true, (melcli_connect M { (melcli_new_context M (teardown M st)).2 with
              g_ctx_ := some ctx } ctx).2)) := by
  unfold init_plc teardown
  cases hr : (melcli_new_context M
      (match st.g_ctx_ with
        | some ctx => melcli_free_context M (melcli_disconnect M st ctx) ctx
        | none => st)).1 <;> simp [hr]

theorem disconnect_eq (M : Engine E) (st : State E) :
    disconnect M st = (true, teardown M st) := by
  unfold disconnect teardown
  cases st.g_ctx_ <;> rfl

theorem teardown_fields (M : Engine E) (st : State E) :
    (teardown M st).g_ctx_ = st.g_ctx_ ∧ (teardown M st).ctxtype_ = st.ctxtype_ ∧
    (teardown M st).target_ip_addr_ = st.target_ip_addr_ ∧
    (teardown M st).target_port_ = st.target_port_ := by
  obtain ⟨g, a, b, c, e, tr⟩ := st
  cases g <;> simp [teardown, melcli_free_context, melcli_disconnect, emit]

theorem teardown_trace (M : Engine E) (st : State E) :
    (teardown M st).trace = st.trace ++
      (match st.g_ctx_ with
        | some ctx => [Event.disconnect ctx, Event.free_context ctx]
        | none => []) := by
  obtain ⟨g, a, b, c, e, tr⟩ := st
  cases g <;> simp [teardown, melcli_free_context, melcli_disconnect, emit]

theorem heldBy_erase (g : Option Handle) (ctx : Handle) (live : List Handle)
    (hg : g = some ctx) (h : HeldBy g live) : live.erase ctx = [] := by
  rcases h with h | ⟨c, h1, h2⟩
  · subst h; rfl
  · rw [hg] at h1
    injection h1 with h1
    subst h1 h2
    simp

theorem teardown_inv (M : Engine E) (st : State E) (h : LifecycleInv st) :
    OneLiveHandle (teardown M st).trace ∧ unfreed (teardown M st).trace = [] ∧
      undisconnected (teardown M st).trace = [] := by
  obtain ⟨h1, h2, h3⟩ := h
  rw [teardown_trace]
  cases hg : st.g_ctx_ with
  | none =>
    simp only [List.append_nil]
    refine ⟨h1, ?_, ?_⟩
    · rcases h2 with h | ⟨c, hc, -⟩
      · exact h
      · rw [hg] at hc; cases hc
    · rcases h3 with h | ⟨c, hc, -⟩
      · exact h
      · rw [hg] at hc; cases hc
  | some ctx =>
    have e1 : st.trace ++ [Event.disconnect ctx, Event.free_context ctx] =
        (st.trace ++ [Event.disconnect ctx]) ++ [Event.free_context ctx] := by simp
    simp only []
    rw [e1]
    have hu1 : unfreed (st.trace ++ [Event.disconnect ctx]) = unfreed st.trace := by
      rw [unfreed_snoc]; rfl
    have hu2 : unfreed ((st.trace ++ [Event.disconnect ctx]) ++ [Event.free_context ctx])
        = [] := by
      rw [unfreed_snoc, hu1]
      exact heldBy_erase _ ctx _ hg h2
    have hd : undisconnected
        ((st.trace ++ [Event.disconnect ctx]) ++ [Event.free_context ctx]) = [] := by
      rw [undisconnected_snoc, undisconnected_snoc]
      exact heldBy_erase _ ctx _ hg h3
    refine ⟨?_, hu2, hd⟩
    apply oneLiveHandle_snoc
    · apply oneLiveHandle_snoc _ _ h1
      · intro h; cases h
      · rw [hu1]
        rcases h2 with h | ⟨c, -, hc⟩
        · rw [h]; simp
        · rw [hc]; simp
    · intro h; cases h
    · rw [hu2]; simp

theorem init_plc_trace (M : Engine E) (st : State E) :
    (init_plc M st).2.trace = (teardown M st).trace ++
      (Event.new_context st.ctxtype_ st.target_ip_addr_ st.target_port_
        (M.new_context (teardown M st).eng st.ctxtype_ st.target_ip_addr_
          st.target_port_).1 ::
        (match (M.new_context (teardown M st).eng st.ctxtype_ st.target_ip_addr_
            st.target_port_).1 with
          | none => []
          | some ctx => [Event.connect ctx
              (M.connect (M.new_context (teardown M st).eng st.ctxtype_
                st.target_ip_addr_ st.target_port_).2 ctx).1])) ∧
    (init_plc M st).2.g_ctx_ =
      (M.new_context (teardown M st).eng st.ctxtype_ st.target_ip_addr_
        st.target_port_).1 := by
  obtain ⟨-, f2, f3, f4⟩ := teardown_fields M st
  rw [init_plc_eq]
  unfold melcli_new_context
  simp only [f2, f3, f4]
  cases hr : (M.new_context (teardown M st).eng st.ctxtype_ st.target_ip_addr_
      st.target_port_).1 with
  | none => simp [emit]
  | some ctx =>
    simp only [melcli_connect, emit]
    split_ifs <;> simp

theorem init_plc_inv (M : Engine E) (st : State E) (h : LifecycleInv st) :
    LifecycleInv (init_plc M st).2 := by
  obtain ⟨t1, t2, t3⟩ := teardown_inv M st h
  obtain ⟨htr, hg⟩ := init_plc_trace M st
  unfold LifecycleInv
  rw [htr, hg]
  generalize (M.new_context (teardown M st).eng st.ctxtype_ st.target_ip_addr_
      st.target_port_) = r
  generalize (teardown M st).trace = tr at t1 t2 t3
  have hu : unfreed (tr ++ [Event.new_context st.ctxtype_ st.target_ip_addr_
      st.target_port_ r.1]) = r.1.toList := by
    rw [unfreed_snoc, t2]
    cases r.1 <;> rfl
  have hd : undisconnected (tr ++ [Event.new_context st.ctxtype_ st.target_ip_addr_
      st.target_port_ r.1]) = r.1.toList := by
    rw [undisconnected_snoc, t3]
    cases r.1 <;> rfl
  have g1 : OneLiveHandle (tr ++ [Event.new_context st.ctxtype_ st.target_ip_addr_
      st.target_port_ r.1]) := by
    apply oneLiveHandle_snoc _ _ t1
    · intro _; exact ⟨t2, t3⟩
    · rw [hu]; cases r.1 <;> simp
  cases hr : r.1 with
  | none =>
    rw [hr] at hu hd g1
    simp only []
    exact ⟨g1, Or.inl hu, Or.inl hd⟩
  | some ctx =>
    rw [hr] at hu hd g1
    simp only []
    have e1 : ∀ rc, tr ++ [Event.new_context st.ctxtype_ st.target_ip_addr_
        st.target_port_ (some ctx), Event.connect ctx rc] =
        (tr ++ [Event.new_context st.ctxtype_ st.target_ip_addr_
        st.target_port_ (some ctx)]) ++ [Event.connect ctx rc] := by simp
    rw [e1]
    have hu' : ∀ rc, unfreed ((tr ++ [Event.new_context st.ctxtype_ st.target_ip_addr_
        st.target_port_ (some ctx)]) ++ [Event.connect ctx rc]) = [ctx] := by
      intro rc
      rw [unfreed_snoc, hu]; rfl
    have hd' : ∀ rc, undisconnected ((tr ++ [Event.new_context st.ctxtype_
        st.target_ip_addr_ st.target_port_ (some ctx)]) ++ [Event.connect ctx rc])
        = [ctx] := by
      intro rc
      rw [undisconnected_snoc, hd]; rfl
    refine ⟨?_, Or.inr ⟨ctx, rfl, hu' _⟩, Or.inr ⟨ctx, rfl, hd' _⟩⟩
    apply oneLiveHandle_snoc _ _ g1
    · intro h; cases h
    · rw [hu']; simp

theorem disconnect_inv (M : Engine E) (st : State E) (h : LifecycleInv st) :
    LifecycleInv (disconnect M st).2 := by
  obtain ⟨t1, t2, t3⟩ := teardown_inv M st h
  rw [disconnect_eq]
  exact ⟨t1, Or.inl t2, Or.inl t3⟩

theorem lifecycleRun_inv (M : Engine E) (calls : List LifecycleCall) (st : State E)
    (h : LifecycleInv st) : LifecycleInv (lifecycleRun M st calls) := by
  induction calls generalizing st with
  | nil => exact h
  | cons c cs ih =>
    apply ih
    cases c
    · exact init_plc_inv M st h
    · exact disconnect_inv M st h

/-- C8 fails as stated: on the test double that refuses `connect`, `init_plc`
on a fresh client returns failure, yet the client still holds the handle of the
context the call created, and that context has not been freed. -/
theorem init_plc_connect_failure_keeps_handle :
    (init_plc doubleEngine (freshClient refusingDouble)).1 = false ∧
    (init_plc doubleEngine (freshClient refusingDouble)).2.g_ctx_ = some 1 ∧
    (init_plc doubleEngine (freshClient refusingDouble)).2.trace =
      [Event.new_context 0 "192.168.6.10" 502 (some 1), Event.connect 1 (-1)] ∧
    unfreed (init_plc doubleEngine (freshClient refusingDouble)).2.trace = [1] := by
  decide

/-- C8, amended: whenever `init_plc` returns failure, either the engine's
`new_context` returned null, and then the client holds no handle afterwards
and the call's last event is that `new_context`; or `new_context` returned a
context `ctx` and `connect` returned non-zero, and then the client holds `ctx`
afterwards and the events of the call after the teardown of the prior handle
are exactly `new_context` and `connect`: `ctx` has been neither disconnected
nor freed. -/
theorem init_plc_failure_handle (M : Engine E) (st : State E)
    (hfail : (init_plc M st).1 = false) :
    ((M.new_context (teardown M st).eng st.ctxtype_ st.target_ip_addr_
        st.target_port_).1 = none ∧
      (init_plc M st).2.g_ctx_ = none ∧
      (init_plc M st).2.trace = (teardown M st).trace ++
        [Event.new_context st.ctxtype_ st.target_ip_addr_ st.target_port_ none]) ∨
    (∃ ctx rc,
      (M.new_context (teardown M st).eng st.ctxtype_ st.target_ip_addr_
        st.target_port_).1 = some ctx ∧
      (M.connect (M.new_context (teardown M st).eng st.ctxtype_ st.target_ip_addr_
        st.target_port_).2 ctx).1 = rc ∧ rc ≠ 0 ∧
      (init_plc M st).2.g_ctx_ = some ctx ∧
      (init_plc M st).2.trace = (teardown M st).trace ++
        [Event.new_context st.ctxtype_ st.target_ip_addr_ st.target_port_ (some ctx),
          Event.connect ctx rc]) := by
  obtain ⟨htr, hg⟩ := init_plc_trace M st
  obtain ⟨-, f2, f3, f4⟩ := teardown_fields M st
  rw [htr, hg]
  cases hr : (M.new_context (teardown M st).eng st.ctxtype_ st.target_ip_addr_
      st.target_port_).1 with
  | none => exact Or.inl ⟨rfl, rfl, rfl⟩
  | some ctx =>
    refine Or.inr ⟨ctx, _, rfl, rfl, ?_, rfl, rfl⟩
    intro hrc
    rw [init_plc_eq] at hfail
    unfold melcli_new_context at hfail
    simp [f2, f3, f4, hr, melcli_connect, emit, hrc] at hfail

/-- Witness of the amended C8: the test double refuses `connect`. -/
theorem init_plc_failure_handle_witness :
    (init_plc doubleEngine (freshClient refusingDouble)).1 = false ∧
    (((doubleEngine.new_context (teardown doubleEngine (freshClient refusingDouble)).eng
        (freshClient refusingDouble).ctxtype_ (freshClient refusingDouble).target_ip_addr_
        (freshClient refusingDouble).target_port_).1 = none ∧
      (init_plc doubleEngine (freshClient refusingDouble)).2.g_ctx_ = none ∧
      (init_plc doubleEngine (freshClient refusingDouble)).2.trace =
        (teardown doubleEngine (freshClient refusingDouble)).trace ++
        [Event.new_context (freshClient refusingDouble).ctxtype_
          (freshClient refusingDouble).target_ip_addr_
          (freshClient refusingDouble).target_port_ none]) ∨
    (∃ ctx rc,
      (doubleEngine.new_context (teardown doubleEngine (freshClient refusingDouble)).eng
        (freshClient refusingDouble).ctxtype_ (freshClient refusingDouble).target_ip_addr_
        (freshClient refusingDouble).target_port_).1 = some ctx ∧
      (doubleEngine.connect
        (doubleEngine.new_context (teardown doubleEngine (freshClient refusingDouble)).eng
          (freshClient refusingDouble).ctxtype_
          (freshClient refusingDouble).target_ip_addr_
          (freshClient refusingDouble).target_port_).2 ctx).1 = rc ∧ rc ≠ 0 ∧
      (init_plc doubleEngine (freshClient refusingDouble)).2.g_ctx_ = some ctx ∧
      (init_plc doubleEngine (freshClient refusingDouble)).2.trace =
        (teardown doubleEngine (freshClient refusingDouble)).trace ++
        [Event.new_context (freshClient refusingDouble).ctxtype_
          (freshClient refusingDouble).target_ip_addr_
          (freshClient refusingDouble).target_port_ (some ctx),
          Event.connect ctx rc])) :=
  ⟨by decide, init_plc_failure_handle doubleEngine (freshClient refusingDouble) (by decide)⟩

/-- C9 on the code: on a connected client (handle `1`), `disconnect` returns
success but leaves `g_ctx_` pointing at the freed context, and a second
`disconnect` in a row calls `melcli_disconnect` and `melcli_free_context` on
that handle again; the destructor after a `disconnect` does the same. -/
theorem disconnect_twice_frees_twice :
    (init_plc doubleEngine (freshClient okDouble)).1 = true ∧
    (init_plc doubleEngine (freshClient okDouble)).2.g_ctx_ = some 1 ∧
    (disconnect doubleEngine (init_plc doubleEngine (freshClient okDouble)).2).1 = true ∧
    (disconnect doubleEngine (init_plc doubleEngine (freshClient okDouble)).2).2.g_ctx_
      = some 1 ∧
    (disconnect doubleEngine
      (disconnect doubleEngine (init_plc doubleEngine (freshClient okDouble)).2).2).2.trace
      = (disconnect doubleEngine (init_plc doubleEngine (freshClient okDouble)).2).2.trace
        ++ [Event.disconnect 1, Event.free_context 1] ∧
    (disconnect doubleEngine
      (disconnect doubleEngine (init_plc doubleEngine (freshClient okDouble)).2).2).2.trace
      = [Event.new_context 0 "192.168.6.10" 502 (some 1), Event.connect 1 0,
          Event.disconnect 1, Event.free_context 1,
          Event.disconnect 1, Event.free_context 1] ∧
    (destroy doubleEngine
      (disconnect doubleEngine (init_plc doubleEngine (freshClient okDouble)).2).2).trace
      = [Event.new_context 0 "192.168.6.10" 502 (some 1), Event.connect 1 0,
          Event.disconnect 1, Event.free_context 1,
          Event.disconnect 1, Event.free_context 1] := by
  decide

/-- C10: for every engine, every freshly constructed client and every sequence
of `init_plc` and `disconnect` calls on it: at each call of the engine's
`new_context` in the resulting trace, no context created earlier is still
unfreed and none is still undisconnected; and after every prefix of the trace
at most one context is created and not yet freed. -/
theorem init_plc_one_live_handle (M : Engine E) (target_ip_addr : String)
    (target_port type_protocol : Int) (e : E) (calls : List LifecycleCall) :
    (∀ pre ev post,
      (lifecycleRun M (PlcClient target_ip_addr target_port type_protocol e) calls).trace
        = pre ++ ev :: post →
      ev.isNewContext = true → unfreed pre = [] ∧ undisconnected pre = []) ∧
    (∀ pre,
      pre <+: (lifecycleRun M (PlcClient target_ip_addr target_port type_protocol e)
        calls).trace →
      (unfreed pre).length ≤ 1) := by
  have h0 : LifecycleInv (PlcClient target_ip_addr target_port type_protocol e) :=
    ⟨oneLiveHandle_nil, Or.inl rfl, Or.inl rfl⟩
  exact (lifecycleRun_inv M calls _ h0).1

/-! ## Addresses of the benchmark: claim C18 -/

theorem digitChar_mod_ten (n : Nat) :
    Atom.digit.test (Nat.digitChar (n % 10)) = true ∧
      (Nat.digitChar (n % 10)).toNat - 48 = n % 10 := by
  have h : n % 10 < 10 := Nat.mod_lt _ (by decide)
  generalize n % 10 = m at h
  interval_cases m <;> decide

theorem toDigitsCore_spec (fuel : Nat) : ∀ (n : Nat) (ds : List Char), n < fuel →
    ∃ l : List Char, Nat.toDigitsCore 10 fuel n ds = l ++ ds ∧ l ≠ [] ∧
      (∀ c ∈ l, Atom.digit.test c = true) ∧ decimalValue 0 l = n := by
  induction fuel with
  | zero => intro n ds h; omega
  | succ fuel ih =>
    intro n ds h
    obtain ⟨hd, hv⟩ := digitChar_mod_ten n
    rw [Nat.toDigitsCore]
    by_cases h0 : n / 10 = 0
    · refine ⟨[Nat.digitChar (n % 10)], by simp [h0], by simp, ?_, ?_⟩
      · intro c hc
        rw [List.mem_singleton.mp hc]
        exact hd
      · simp only [decimalValue, List.foldl_cons, List.foldl_nil, hv]
        omega
    · have hlt : n / 10 < fuel := by omega
      obtain ⟨l, h1, h2, h3, h4⟩ := ih (n / 10) (Nat.digitChar (n % 10) :: ds) hlt
      refine ⟨l ++ [Nat.digitChar (n % 10)], ?_, by simp, ?_, ?_⟩
      · simp only [h0, if_false]
        rw [h1]
        simp
      · intro c hc
        rcases List.mem_append.mp hc with hc | hc
        · exact h3 c hc
        · rw [List.mem_singleton.mp hc]
          exact hd
      · unfold decimalValue at h4 ⊢
        rw [List.foldl_append, h4]
        simp only [List.foldl_cons, List.foldl_nil, hv]
        omega

theorem toDigits_spec (n : Nat) :
    Nat.toDigits 10 n ≠ [] ∧ (∀ c ∈ Nat.toDigits 10 n, Atom.digit.test c = true) ∧
      decimalValue 0 (Nat.toDigits 10 n) = n := by
  obtain ⟨l, h1, h2, h3, h4⟩ := toDigitsCore_spec (n + 1) n [] (by omega)
  rw [List.append_nil] at h1
  unfold Nat.toDigits
  rw [h1]
  exact ⟨h2, h3, h4⟩

theorem d_address_toList (i : Int) (h : 0 ≤ i) :
    ("D" ++ to_string i).toList = 'D' :: Nat.toDigits 10 i.toNat := by
  unfold to_string
  rw [if_neg (by omega)]
  rfl

theorem d_address_type (i : Int) (h : 0 ≤ i) :
    get_register_type ("D" ++ to_string i) = RegisterType.D_REGISTER := by
  apply get_register_type_of_rule
  obtain ⟨h1, h2, -⟩ := toDigits_spec i.toNat
  exact ⟨Nat.toDigits 10 i.toNat, h1, fun c hc => (digit_test_iff c).1 (h2 c hc),
    d_address_toList i h⟩

theorem d_address_valid (i : Int) (h : 0 ≤ i) :
    validate_register_address (some ("D" ++ to_string i)) = true := by
  have ht := d_address_type i h
  have hl : strlen ("D" ++ to_string i) ≠ 0 := by
    unfold strlen
    rw [String.length, show ("D" ++ to_string i).data = ("D" ++ to_string i).toList from rfl,
      d_address_toList i h]
    simp
  simp [validate_register_address, hl, ht]

theorem negative_address_type (i : Int) (h : i < 0) :
    get_register_type ("D" ++ to_string i) = RegisterType.UNKNOWN := by
  have hl : ("D" ++ to_string i).toList = 'D' :: '-' :: Nat.toDigits 10 i.natAbs := by
    unfold to_string
    rw [if_pos h]
    rfl
  by_contra hne
  have hm := rule_of_get_register_type _ hne
  have hh := (rule_head _ _ hm).1
  rw [hl] at hh
  have hK : get_register_type ("D" ++ to_string i) = RegisterType.D_REGISTER := by
    revert hh hne
    cases get_register_type ("D" ++ to_string i) <;> simp [ruleLetter]
  rw [hK] at hm
  obtain ⟨ds, -, h2, h3⟩ := hm
  rw [hl] at h3
  have h4 : '-' :: Nat.toDigits 10 i.natAbs = ds := by
    have : 'D' :: '-' :: Nat.toDigits 10 i.natAbs = 'D' :: ds := h3
    injection this
  have h5 := h2 '-' (by rw [← h4]; simp)
  revert h5
  decide

/-- C18: for every `RegisterGroup` with `start_addr ≥ 0`, `get_address()` is
classified `D_REGISTER` and passes validation, and for every `start_addr < 0`
it is classified `UNKNOWN` (and rejected); so every address the benchmarks
generate, `"D" + std::to_string(i)` for `1 ≤ i ≤ 1000` and the addresses of
the ten groups of `register_groups`, is accepted by the classifier, and the
validation loop of `main` rejects none of them. -/
theorem get_address_classified :
    (∀ g : RegisterGroup, 0 ≤ g.start_addr →
      get_register_type g.get_address = RegisterType.D_REGISTER ∧
      get_address_type (some g.get_address) = RegisterType.D_REGISTER ∧
      validate_register_address (some g.get_address) = true ∧
      is_valid_register_address (some g.get_address) = true) ∧
    (∀ g : RegisterGroup, g.start_addr < 0 →
      get_register_type g.get_address = RegisterType.UNKNOWN ∧
      get_address_type (some g.get_address) = RegisterType.UNKNOWN) ∧
    (∀ i : Int, 1 ≤ i → i ≤ 1000 →
      get_register_type ("D" ++ to_string i) = RegisterType.D_REGISTER ∧
      validate_register_address (some ("D" ++ to_string i)) = true) ∧
    (∀ g ∈ register_groups,
      get_register_type g.get_address = RegisterType.D_REGISTER ∧
      is_valid_register_address (some g.get_address) = true) ∧
    register_groups.map RegisterGroup.get_address =
      ["D1", "D101", "D201", "D301", "D401", "D501", "D601", "D701", "D801", "D901"] ∧
    to_string 1000 = "1000" ∧ to_string (-5) = "-5" := by
  refine ⟨?_, ?_, ?_, ?_, by decide, by decide, by decide⟩
  · intro g h
    exact ⟨d_address_type _ h, d_address_type _ h, d_address_valid _ h, d_address_valid _ h⟩
  · intro g h
    exact ⟨negative_address_type _ h, negative_address_type _ h⟩
  · intro i h1 _
    exact ⟨d_address_type i (by omega), d_address_valid i (by omega)⟩
  · intro g hg
    have h0 : 0 ≤ g.start_addr := by
      revert g
      decide
    exact ⟨d_address_type _ h0, d_address_valid _ h0⟩

/-! ## The mutex: claim C13 -/

theorem newEvents_append (tr evs : List Event) : newEvents tr (tr ++ evs) = evs := by
  simp [newEvents]

theorem read_register_events (M : Engine E) (st : State E) (addr : Option String)
    (x : Nat) :
    ∃ evs, (read_batch_d_register M st addr x).2.2.trace = st.trace ++ evs ∧
      lockedCalls false evs = true := by
  unfold read_batch_d_register
  by_cases hv : validate_register_address addr = false
  · exact ⟨[], by simp [hv], rfl⟩
  · rw [if_neg hv]
    by_cases hr : (M.batch_read st.eng st.g_ctx_ addr 1).1 = 0
    · exact ⟨[Event.lock, Event.batch_read st.g_ctx_ addr 1
          (M.batch_read st.eng st.g_ctx_ addr 1).1 (M.batch_read st.eng st.g_ctx_ addr 1).2.1,
          Event.free, Event.unlock],
        by simp [melcli_batch_read, emit, hr], rfl⟩
    · exact ⟨[Event.lock, Event.batch_read st.g_ctx_ addr 1
          (M.batch_read st.eng st.g_ctx_ addr 1).1 (M.batch_read st.eng st.g_ctx_ addr 1).2.1,
          Event.unlock],
        by simp [melcli_batch_read, emit, hr], rfl⟩

theorem read_registers_events (M : Engine E) (st : State E) (addr : Option String)
    (n : Int) (data : List Nat) :
    ∃ evs, (read_batch_d_registers M st addr n data).2.2.trace = st.trace ++ evs ∧
      lockedCalls false evs = true := by
  unfold read_batch_d_registers
  by_cases hv : validate_register_address addr = false
  · exact ⟨[], by simp [hv], rfl⟩
  · rw [if_neg hv]
    by_cases hr : (M.batch_read st.eng st.g_ctx_ addr n).1 = 0
    · cases hz : resize data (toSizeT n) with
      | none =>
        exact ⟨[Event.lock, Event.batch_read st.g_ctx_ addr n
            (M.batch_read st.eng st.g_ctx_ addr n).1
            (M.batch_read st.eng st.g_ctx_ addr n).2.1, Event.unlock],
          by simp [melcli_batch_read, emit, hr], rfl⟩
      | some d =>
        exact ⟨[Event.lock, Event.batch_read st.g_ctx_ addr n
            (M.batch_read st.eng st.g_ctx_ addr n).1
            (M.batch_read st.eng st.g_ctx_ addr n).2.1, Event.free, Event.unlock],
          by simp [melcli_batch_read, emit, hr], rfl⟩
    · exact ⟨[Event.lock, Event.batch_read st.g_ctx_ addr n
          (M.batch_read st.eng st.g_ctx_ addr n).1
          (M.batch_read st.eng st.g_ctx_ addr n).2.1, Event.unlock],
        by simp [melcli_batch_read, emit, hr], rfl⟩

theorem write_register_events (M : Engine E) (st : State E) (addr : Option String)
    (x : Nat) :
    ∃ evs, (write_batch_d_register M st addr x).2.trace = st.trace ++ evs ∧
      lockedCalls false evs = true := by
  unfold write_batch_d_register
  by_cases hv : validate_register_address addr = false
  · exact ⟨[], by simp [hv], rfl⟩
  · rw [if_neg hv]
    refine ⟨[Event.lock, Event.batch_write st.g_ctx_ addr 1 [x]
        (M.batch_write st.eng st.g_ctx_ addr 1 [x]).1, Event.unlock], ?_, rfl⟩
    by_cases hr : (M.batch_write st.eng st.g_ctx_ addr 1 [x]).1 = 0 <;>
      simp [melcli_batch_write, emit, hr]

theorem write_registers_events (M : Engine E) (st : State E) (addr : Option String)
    (n : Int) (data : List Nat) :
    ∃ evs, (write_batch_d_registers M st addr n data).2.trace = st.trace ++ evs ∧
      lockedCalls false evs = true := by
  unfold write_batch_d_registers
  by_cases hv : validate_register_address addr = false
  · exact ⟨[], by simp [hv], rfl⟩
  · rw [if_neg hv]
    by_cases hs : data.length < toSizeT n
    · exact ⟨[], by simp [hs], rfl⟩
    · rw [if_neg hs]
      refine ⟨[Event.lock, Event.batch_write st.g_ctx_ addr n (data.take n.toNat)
          (M.batch_write st.eng st.g_ctx_ addr n (data.take n.toNat)).1, Event.unlock], ?_, rfl⟩
      by_cases hr : (M.batch_write st.eng st.g_ctx_ addr n (data.take n.toNat)).1 = 0 <;>
        simp [melcli_batch_write, emit, hr]

/-- C13 fails as stated: `init_plc` on a fresh client makes two engine calls
(`melcli_new_context`, `melcli_connect`) and `disconnect` on the connected
client two more, and none of the four is made with the mutex held: neither
call takes the mutex at all. -/
theorem lifecycle_calls_take_no_lock :
    (init_plc doubleEngine (freshClient okDouble)).2.trace =
      [Event.new_context 0 "192.168.6.10" 502 (some 1), Event.connect 1 0] ∧
    lockedCalls false (newEvents (freshClient okDouble).trace
      (init_plc doubleEngine (freshClient okDouble)).2.trace) = false ∧
    newEvents (init_plc doubleEngine (freshClient okDouble)).2.trace
      (disconnect doubleEngine (init_plc doubleEngine (freshClient okDouble)).2).2.trace =
      [Event.disconnect 1, Event.free_context 1] ∧
    lockedCalls false (newEvents (init_plc doubleEngine (freshClient okDouble)).2.trace
      (disconnect doubleEngine (init_plc doubleEngine (freshClient okDouble)).2).2.trace)
      = false := by
  decide

/-- C13, amended: every engine call made by one of the four batched operations
(`read_batch_d_register`, `read_batch_d_registers`, `write_batch_d_register`,
`write_batch_d_registers`) is made while the client's mutex is held by that
call: among the events the call adds to the trace the mutex is taken before
the first engine call and released after the last one.  The lifecycle calls
`init_plc` and `disconnect` do not take the mutex: the events they add hold no
`lock` and no `unlock`. -/
theorem batched_calls_hold_lock (M : Engine E) (st : State E) (addr : Option String)
    (x : Nat) (n : Int) (data : List Nat) :
    lockedCalls false (newEvents st.trace (read_batch_d_register M st addr x).2.2.trace)
      = true ∧
    lockedCalls false (newEvents st.trace (read_batch_d_registers M st addr n data).2.2.trace)
      = true ∧
    lockedCalls false (newEvents st.trace (write_batch_d_register M st addr x).2.trace)
      = true ∧
    lockedCalls false (newEvents st.trace (write_batch_d_registers M st addr n data).2.trace)
      = true ∧
    Event.lock ∉ newEvents st.trace (init_plc M st).2.trace ∧
    Event.unlock ∉ newEvents st.trace (init_plc M st).2.trace ∧
    Event.lock ∉ newEvents st.trace (disconnect M st).2.trace ∧
    Event.unlock ∉ newEvents st.trace (disconnect M st).2.trace := by
  obtain ⟨e1, h1, l1⟩ := read_register_events M st addr x
  obtain ⟨e2, h2, l2⟩ := read_registers_events M st addr n data
  obtain ⟨e3, h3, l3⟩ := write_register_events M st addr x
  obtain ⟨e4, h4, l4⟩ := write_registers_events M st addr n data
  rw [h1, h2, h3, h4]
  simp only [newEvents_append]
  refine ⟨l1, l2, l3, l4, ?_⟩
  have hi := (init_plc_trace M st).1
  have ht := teardown_trace M st
  rw [disconnect_eq, hi, ht]
  simp only [List.append_assoc, newEvents_append]
  cases st.g_ctx_ <;>
    cases (M.new_context (teardown M st).eng st.ctxtype_ st.target_ip_addr_
      st.target_port_).1 <;> simp

/-! ## The D-register memory: claim C11 -/

theorem d_offset_address (i : Int) (h : 0 ≤ i) :
    d_offset (some ("D" ++ to_string i)) = some i.toNat := by
  have hm : regex_match ("D" ++ to_string i) d_register_pattern_ = true := by
    rw [d_pattern_iff]
    obtain ⟨h1, h2, -⟩ := toDigits_spec i.toNat
    exact ⟨Nat.toDigits 10 i.toNat, h1, fun c hc => (digit_test_iff c).1 (h2 c hc),
      d_address_toList i h⟩
  unfold d_offset
  simp only [hm, if_true]
  rw [d_address_toList i h]
  simp only [List.drop_succ_cons, List.drop_zero]
  rw [(toDigits_spec i.toNat).2.2]

theorem load_length (mem : Nat → Nat) (off n : Nat) : (load mem off n).length = n := by
  simp [load]

theorem load_getElem? (mem : Nat → Nat) (off n i : Nat) (h : i < n) :
    (load mem off n)[i]? = some (mem (off + i)) := by
  simp [load, List.getElem?_range h]

theorem load_store (mem : Nat → Nat) (off : Nat) (data : List Nat) :
    load (store mem off data) off data.length = data := by
  apply List.ext_getElem?
  intro i
  by_cases h : i < data.length
  · rw [load_getElem? _ _ _ _ h]
    have : off ≤ off + i ∧ off + i < off + data.length := by omega
    simp [store, this, List.getD, List.getElem?_eq_getElem h]
  · rw [List.getElem?_eq_none (by rw [load_length]; omega),
      List.getElem?_eq_none (by omega)]

theorem write_registers_eq (M : Engine E) (st : State E) (addr : Option String)
    (n : Int) (data : List Nat) (hv : validate_register_address addr = true)
    (hs : ¬ data.length < toSizeT n) :
    write_batch_d_registers M st addr n data =
      (decide ((M.batch_write st.eng st.g_ctx_ addr n (data.take n.toNat)).1 = 0),
        { st with
          eng := (M.batch_write st.eng st.g_ctx_ addr n (data.take n.toNat)).2
          trace := st.trace ++ [Event.lock,
            Event.batch_write st.g_ctx_ addr n (data.take n.toNat)
              (M.batch_write st.eng st.g_ctx_ addr n (data.take n.toNat)).1,
            Event.unlock] }) := by
  unfold write_batch_d_registers
  rw [if_neg (by simp [hv]), if_neg hs]
  by_cases hrc : (M.batch_write st.eng st.g_ctx_ addr n (data.take n.toNat)).1 = 0
  · simp [melcli_batch_write, emit, hrc]
  · simp [melcli_batch_write, emit, hrc]

theorem write_register_eq (M : Engine E) (st : State E) (addr : Option String)
    (x : Nat) (hv : validate_register_address addr = true) :
    write_batch_d_register M st addr x =
      (decide ((M.batch_write st.eng st.g_ctx_ addr 1 [x]).1 = 0),
        { st with
          eng := (M.batch_write st.eng st.g_ctx_ addr 1 [x]).2
          trace := st.trace ++ [Event.lock,
            Event.batch_write st.g_ctx_ addr 1 [x]
              (M.batch_write st.eng st.g_ctx_ addr 1 [x]).1,
            Event.unlock] }) := by
  unfold write_batch_d_register
  rw [if_neg (by simp [hv])]
  by_cases hrc : (M.batch_write st.eng st.g_ctx_ addr 1 [x]).1 = 0
  · simp [melcli_batch_write, emit, hrc]
  · simp [melcli_batch_write, emit, hrc]

theorem read_register_of_success (M : Engine E) (st : State E) (addr : Option String)
    (x : Nat) (r : List Nat) (e' : E) (hv : validate_register_address addr = true)
    (hr : M.batch_read st.eng st.g_ctx_ addr 1 = (0, r, e')) :
    read_batch_d_register M st addr x =
      (true, r.getD 0 0,
        { st with eng := e', trace := st.trace ++
            [Event.lock, Event.batch_read st.g_ctx_ addr 1 0 r, Event.free, Event.unlock] }) := by
  simp [read_batch_d_register, hv, melcli_batch_read, emit, hr]

theorem copy_words_full (r : List Nat) (n : Nat) (data : List Nat) (hr : r.length = n)
    (hd : data.length = n) : copy_words r n data = r := by
  apply List.ext_getElem?
  intro i
  rw [copy_words_getElem?, hd]
  by_cases hi : i < n
  · have : i < r.length := by omega
    simp [hi, List.getD, List.getElem?_eq_getElem this]
  · simp only [hi, and_self, if_false]
    rw [List.getElem?_eq_none (by omega), List.getElem?_eq_none (by omega)]

theorem ideal_batch_write (mem : Nat → Nat) (g : Option Handle) (addr : Option String)
    (off : Nat) (n : Int) (data : List Nat) (h : d_offset addr = some off) :
    idealEngine.batch_write mem g addr n data = (0, store mem off (data.take n.toNat)) := by
  simp [idealEngine, memoryEngine, h]

theorem ideal_batch_read (mem : Nat → Nat) (g : Option Handle) (addr : Option String)
    (off : Nat) (n : Int) (h : d_offset addr = some off) :
    idealEngine.batch_read mem g addr n = (0, load mem off n.toNat, mem) := by
  simp [idealEngine, memoryEngine, h]

theorem read_registers_full (M : Engine E) (st : State E) (addr : Option String)
    (n : Int) (data r : List Nat) (e' : E)
    (hv : validate_register_address addr = true) (hn0 : 0 ≤ n) (hn : n < 2 ^ 31)
    (hr : M.batch_read st.eng st.g_ctx_ addr n = (0, r, e')) (hlen : r.length = n.toNat) :
    read_batch_d_registers M st addr n data =
      (Outcome.returned true, r,
        { st with eng := e', trace := st.trace ++
            [Event.lock, Event.batch_read st.g_ctx_ addr n 0 r, Event.free, Event.unlock] }) := by
  rw [read_registers_of_success M st addr n data r e' hv hn0 hn hr]
  rw [copy_words_full r n.toNat _ hlen]
  simp only [List.length_append, List.length_take, List.length_replicate]
  omega

/-- C11: with the engine an ideal D-register memory, for every client state,
every `n` in `[1, 1000]` and every `v` of length at least `n`,
`write_batch_d_registers("D1", n, v)` succeeds and the following
`read_batch_d_registers("D1", n, out)` succeeds with `out` equal to the first
`n` elements of `v`, whatever `out` held before; likewise
`write_batch_d_register("D5", w)` followed by `read_batch_d_register("D5")`
succeeds and yields `w`, in particular `42` for `w = 42`. -/
theorem write_then_read_round_trip (st : State (Nat → Nat)) :
    (∀ (n : Int) (v out : List Nat), 1 ≤ n → n ≤ 1000 → n ≤ (v.length : Int) →
      (write_batch_d_registers idealEngine st (some "D1") n v).1 = true ∧
      (read_batch_d_registers idealEngine
        (write_batch_d_registers idealEngine st (some "D1") n v).2 (some "D1") n out).1
        = Outcome.returned true ∧
      (read_batch_d_registers idealEngine
        (write_batch_d_registers idealEngine st (some "D1") n v).2 (some "D1") n out).2.1
        = v.take n.toNat) ∧
    (∀ w x : Nat,
      (write_batch_d_register idealEngine st (some "D5") w).1 = true ∧
      (read_batch_d_register idealEngine
        (write_batch_d_register idealEngine st (some "D5") w).2 (some "D5") x).1 = true ∧
      (read_batch_d_register idealEngine
        (write_batch_d_register idealEngine st (some "D5") w).2 (some "D5") x).2.1 = w) ∧
    (read_batch_d_register idealEngine
      (write_batch_d_register idealEngine st (some "D5") 42).2 (some "D5") 0).2.1 = 42 := by
  have hv1 : validate_register_address (some "D1") = true := by decide
  have hv5 : validate_register_address (some "D5") = true := by decide
  have ho1 : d_offset (some "D1") = some 1 := by decide
  have ho5 : d_offset (some "D5") = some 5 := by decide
  have scalar : ∀ w x : Nat,
      (write_batch_d_register idealEngine st (some "D5") w).1 = true ∧
      (read_batch_d_register idealEngine
        (write_batch_d_register idealEngine st (some "D5") w).2 (some "D5") x).1 = true ∧
      (read_batch_d_register idealEngine
        (write_batch_d_register idealEngine st (some "D5") w).2 (some "D5") x).2.1 = w := by
    intro w x
    rw [write_register_eq idealEngine st (some "D5") w hv5,
      ideal_batch_write _ _ _ 5 _ _ ho5]
    rw [read_register_of_success idealEngine _ (some "D5") x _ _ hv5
      (ideal_batch_read _ _ _ 5 _ ho5)]
    refine ⟨by simp, rfl, ?_⟩
    simp [load, store]
  refine ⟨?_, scalar, (scalar 42 0).2.2⟩
  intro n v out h1 h2 hlen
  have hs : ¬ v.length < toSizeT n := by
    rw [toSizeT_of_nonneg n (by omega) (by omega)]
    omega
  have htl : (v.take n.toNat).length = n.toNat := by
    rw [List.length_take]
    omega
  rw [write_registers_eq idealEngine st (some "D1") n v hv1 hs,
    ideal_batch_write _ _ _ 1 _ _ ho1, List.take_take, min_self]
  have hr := ideal_batch_read (store st.eng 1 (v.take n.toNat)) st.g_ctx_ (some "D1") 1 n ho1
  rw [read_registers_full idealEngine _ (some "D1") n out _ _ hv1 (by omega) (by omega) hr
    (load_length _ _ _)]
  refine ⟨by simp, rfl, ?_⟩
  show load (store st.eng 1 (v.take n.toNat)) 1 n.toNat = v.take n.toNat
  have := load_store st.eng 1 (v.take n.toNat)
  rw [htl] at this
  exact this

/-! ## The integrity check: claims C14 and C16 -/

theorem mismatchAt_out_of_bounds (seq group : List Nat) (i j : Nat)
    (h : seq.length ≤ i * 100 + j) : mismatchAt seq group i j = false := by
  unfold mismatchAt
  rw [List.getElem?_eq_none h]
  cases group[j]? <;> rfl

theorem compare_group_spec (seq group : List Nat) (i : Nat) :
    ∀ n j, j + n ≤ group.length →
      ∃ ok rs, compare_group seq group i n j = some (ok, rs) ∧
        (ok = true ↔ ∀ j', j ≤ j' → j' < j + n →
          i * 100 + j' < seq.length ∧ group[j']? = seq[i * 100 + j']?) ∧
        mismatchReports rs =
          (if (List.range' j n).any (mismatchAt seq group i) = true then 1 else 0) := by
  intro n
  induction n with
  | zero =>
    intro j _
    refine ⟨true, [], rfl, ?_, by simp [mismatchReports]⟩
    simp only [true_iff]
    intro j' h1 h2
    omega
  | succ n ih =>
    intro j hj
    rw [compare_group]
    by_cases hb : i * 100 + j ≥ seq.length
    · rw [if_pos hb]
      refine ⟨false, _, rfl, ?_, ?_⟩
      · simp only [Bool.false_eq_true, false_iff]
        intro h
        have := (h j (le_refl _) (by omega)).1
        omega
      · have hany : (List.range' j (n + 1)).any (mismatchAt seq group i) = false := by
          rw [List.any_eq_false]
          intro x hx
          rw [List.mem_range'_1] at hx
          rw [mismatchAt_out_of_bounds seq group i x (by omega)]
          simp
        rw [hany]
        simp [mismatchReports, List.countP_cons, Report.isDataMismatch]
    · rw [if_neg hb]
      have hg : j < group.length := by omega
      have hs : i * 100 + j < seq.length := by omega
      rw [List.getElem?_eq_getElem hg, List.getElem?_eq_getElem hs]
      simp only []
      by_cases hne : group[j] ≠ seq[i * 100 + j]
      · rw [if_pos hne]
        refine ⟨false, _, rfl, ?_, ?_⟩
        · simp only [Bool.false_eq_true, false_iff]
          intro h
          have := (h j (le_refl _) (by omega)).2
          rw [List.getElem?_eq_getElem hg, List.getElem?_eq_getElem hs] at this
          exact hne (Option.some.inj this)
        · have hm : mismatchAt seq group i j = true := by
            unfold mismatchAt
            rw [List.getElem?_eq_getElem hg, List.getElem?_eq_getElem hs]
            simpa using hne
          rw [List.range'_succ, List.any_cons, hm]
          simp [mismatchReports, List.countP_cons, Report.isDataMismatch]
      · rw [if_neg hne]
        have heq : group[j] = seq[i * 100 + j] := not_not.mp hne
        obtain ⟨ok, rs, h1, h2, h3⟩ := ih (j + 1) (by omega)
        refine ⟨ok, rs, h1, ?_, ?_⟩
        · rw [h2]
          constructor
          · intro h j' hj1 hj2
            by_cases hjj : j' = j
            · subst hjj
              refine ⟨hs, ?_⟩
              rw [List.getElem?_eq_getElem hg, List.getElem?_eq_getElem hs, heq]
            · exact h j' (by omega) (by omega)
          · intro h j' hj1 hj2
            exact h j' (by omega) (by omega)
        · have hm : mismatchAt seq group i j = false := by
            unfold mismatchAt
            rw [List.getElem?_eq_getElem hg, List.getElem?_eq_getElem hs]
            simpa using heq
          rw [h3, List.range'_succ, List.any_cons, hm, Bool.false_or]

theorem compare_groups_spec (seq : List Nat) (scattered : List (List Nat)) :
    ∀ n i, i + n ≤ scattered.length →
      ∃ ok rs, compare_groups seq scattered n i = some (ok, rs) ∧
        (ok = true ↔ ∀ k, i ≤ k → k < i + n →
          (scattered.getD k []).length = 100 ∧
          ∀ j, j < 100 → k * 100 + j < seq.length ∧
            (scattered.getD k [])[j]? = seq[k * 100 + j]?) ∧
        mismatchReports rs = (List.range' i n).countP (groupHasMismatch seq scattered) := by
  intro n
  induction n with
  | zero =>
    intro i _
    refine ⟨true, [], rfl, ?_, by simp [mismatchReports]⟩
    simp only [true_iff]
    intro k h1 h2
    omega
  | succ n ih =>
    intro i hi
    have hlt : i < scattered.length := by omega
    obtain ⟨ok2, r2, e2, p2, c2⟩ := ih (i + 1) (by omega)
    have hgd : scattered.getD i [] = scattered[i] := by
      simp [List.getD, List.getElem?_eq_getElem hlt]
    rw [compare_groups, List.getElem?_eq_getElem hlt]
    simp only [e2]
    by_cases hsz : scattered[i].length ≠ 100
    · rw [if_pos hsz]
      refine ⟨false && ok2, _, rfl, ?_, ?_⟩
      · simp only [Bool.false_and, Bool.false_eq_true, false_iff]
        intro h
        have := (h i (le_refl _) (by omega)).1
        rw [hgd] at this
        exact hsz this
      · have hm : groupHasMismatch seq scattered i = false := by
          unfold groupHasMismatch
          rw [hgd]
          simp [hsz]
        rw [List.range'_succ, List.countP_cons, hm]
        simp only [mismatchReports, List.countP_append] at c2 ⊢
        rw [c2]
        simp [List.countP_cons, Report.isDataMismatch]
    · rw [if_neg hsz]
      have hsz' : scattered[i].length = 100 := not_not.mp hsz
      obtain ⟨ok1, r1, e1, p1, c1⟩ :=
        compare_group_spec seq scattered[i] i 100 0 (by omega)
      rw [e1]
      refine ⟨ok1 && ok2, r1 ++ r2, rfl, ?_, ?_⟩
      · rw [Bool.and_eq_true, p1, p2]
        constructor
        · rintro ⟨h1, h2⟩ k hk1 hk2
          by_cases hki : k = i
          · subst hki
            rw [hgd]
            exact ⟨hsz', fun j hj => h1 j (Nat.zero_le _) (by omega)⟩
          · exact h2 k (by omega) (by omega)
        · intro h
          refine ⟨?_, fun k hk1 hk2 => h k (by omega) (by omega)⟩
          intro j _ hj
          have := (h i (le_refl _) (by omega)).2 j (by omega)
          rw [hgd] at this
          exact this
      · have hm : groupHasMismatch seq scattered i =
            (List.range' 0 100).any (mismatchAt seq scattered[i] i) := by
          unfold groupHasMismatch
          rw [hgd, List.range_eq_range']
          simp [hsz']
        have hr : List.range' i (n + 1) = i :: List.range' (i + 1) n :=
          List.range'_succ _ _ _
        simp only [mismatchReports, List.countP_append] at c1 c2 ⊢
        rw [c1, c2, hr, List.countP_cons, hm]
        omega

theorem integrity_check_spec (seq : List Nat) (scattered : List (List Nat))
    (h10 : scattered.length = 10) :
    ∃ ok rs, integrity_check seq scattered = some (ok, rs) ∧
      (ok = true ↔ seq.length = 1000 ∧
        ∀ k, k < 10 → (scattered.getD k []).length = 100 ∧
          ∀ j, j < 100 → k * 100 + j < seq.length ∧
            (scattered.getD k [])[j]? = seq[k * 100 + j]?) ∧
      mismatchReports rs = (List.range 10).countP (groupHasMismatch seq scattered) := by
  obtain ⟨ok, rs, e, p, c⟩ := compare_groups_spec seq scattered 10 0 (by omega)
  unfold integrity_check
  rw [e]
  by_cases hs : seq.length ≠ 1000
  · refine ⟨false && ok, Report.sequential_size seq.length :: rs, by simp [hs], ?_, ?_⟩
    · simp only [Bool.false_and, Bool.false_eq_true, false_iff]
      intro h
      exact hs h.1
    · rw [List.range_eq_range', ← c]
      simp [mismatchReports, List.countP_cons, Report.isDataMismatch]
  · have hs' : seq.length = 1000 := not_not.mp hs
    refine ⟨true && ok, rs, by simp [hs'], ?_, ?_⟩
    · rw [Bool.true_and, p]
      constructor
      · intro h
        exact ⟨hs', fun k hk => h k (Nat.zero_le _) (by omega)⟩
      · intro h k _ hk
        exact h.2 k (by omega)
    · rw [c, List.range_eq_range']

theorem getD_nil_eq_getElem (l : List (List Nat)) (k : Nat) (h : k < l.length) :
    l.getD k [] = l[k] := by
  simp [List.getD, List.getElem?_eq_getElem h]

theorem countP_le_sum_map (p : Nat → Bool) (f : Nat → Nat) (l : List Nat)
    (h : ∀ k, p k = true → 1 ≤ f k) : l.countP p ≤ (l.map f).sum := by
  induction l with
  | nil => simp
  | cons a t ih =>
    rw [List.countP_cons, List.map_cons, List.sum_cons]
    by_cases ha : p a = true
    · have := h a ha
      simp only [ha, if_true]
      omega
    · simp only [ha]
      simp only [Bool.false_eq_true, if_false]
      omega

/-- C14: for every sequential result vector and every list of ten scattered
group vectors, the integrity check runs to its end without indexing a vector
past its end, and its final `integrity_ok` is `true` if and only if the
sequential vector has length 1000, every group vector has length 100, and
`scattered[k][j] == sequential[100k+j]` for every `k` in `[0,10)` and `j` in
`[0,100)`. -/
theorem integrity_ok_iff (seq : List Nat) (scattered : List (List Nat))
    (h10 : scattered.length = 10) :
    ∃ ok reports, integrity_check seq scattered = some (ok, reports) ∧
      (ok = true ↔ seq.length = 1000 ∧ (∀ g ∈ scattered, g.length = 100) ∧
        ∀ k, k < 10 → ∀ j, j < 100 →
          (scattered[k]?).bind (fun g => g[j]?) = seq[100 * k + j]?) := by
  obtain ⟨ok, rs, e, p, -⟩ := integrity_check_spec seq scattered h10
  refine ⟨ok, rs, e, ?_⟩
  rw [p]
  have hgd : ∀ k, k < 10 → scattered[k]? = some (scattered.getD k []) := by
    intro k hk
    have : k < scattered.length := by omega
    simp [List.getD, List.getElem?_eq_getElem this]
  constructor
  · rintro ⟨hs, h⟩
    refine ⟨hs, ?_, ?_⟩
    · intro g hg
      obtain ⟨k, hk, rfl⟩ := List.getElem_of_mem hg
      have := (h k (by omega)).1
      rw [getD_nil_eq_getElem scattered k hk] at this
      exact this
    · intro k hk j hj
      rw [hgd k hk, Option.some_bind, (h k hk).2 j hj |>.2, Nat.mul_comm]
  · rintro ⟨hs, hg, h⟩
    refine ⟨hs, fun k hk => ?_⟩
    have hmem : scattered.getD k [] ∈ scattered := by
      have hk' : k < scattered.length := by omega
      rw [getD_nil_eq_getElem scattered k hk']
      exact List.getElem_mem hk'
    refine ⟨hg _ hmem, fun j hj => ⟨by omega, ?_⟩⟩
    have := h k hk j hj
    rw [hgd k hk, Option.some_bind, Nat.mul_comm] at this
    exact this

/-- Witness of C14: ten groups of zeros against a sequential result of 1000
zeros. -/
theorem integrity_ok_iff_witness :
    zeroGroups.length = 10 ∧
    ∃ ok reports, integrity_check zeroSequential zeroGroups = some (ok, reports) ∧
      (ok = true ↔ zeroSequential.length = 1000 ∧ (∀ g ∈ zeroGroups, g.length = 100) ∧
        ∀ k, k < 10 → ∀ j, j < 100 →
          (zeroGroups[k]?).bind (fun g => g[j]?) = zeroSequential[100 * k + j]?) :=
  ⟨by decide, integrity_ok_iff zeroSequential zeroGroups (by decide)⟩

theorem compare_group_reports_of_ok (seq group : List Nat) (i : Nat) :
    ∀ n j rs, compare_group seq group i n j = some (true, rs) → rs = [] := by
  intro n
  induction n with
  | zero =>
    intro j rs h
    rw [compare_group] at h
    injection h with h
    injection h with _ h
    exact h.symm
  | succ n ih =>
    intro j rs h
    rw [compare_group] at h
    split_ifs at h with hb
    · simp at h
    · split at h
      · split_ifs at h
        · simp at h
        · exact ih _ _ h
      · simp at h

theorem compare_groups_reports_of_ok (seq : List Nat) (scattered : List (List Nat)) :
    ∀ n i rs, compare_groups seq scattered n i = some (true, rs) → rs = [] := by
  intro n
  induction n with
  | zero =>
    intro i rs h
    rw [compare_groups] at h
    injection h with h
    injection h with _ h
    exact h.symm
  | succ n ih =>
    intro i rs h
    rw [compare_groups] at h
    cases hg : scattered[i]? with
    | none => simp [hg] at h
    | some group =>
      simp only [hg] at h
      cases h2 : compare_groups seq scattered n (i + 1) with
      | none =>
        rw [h2] at h
        split at h <;> simp_all
      | some q2 =>
        obtain ⟨ok2, r2⟩ := q2
        rw [h2] at h
        by_cases hsz : group.length ≠ 100
        · rw [if_pos hsz] at h
          simp at h
        · rw [if_neg hsz] at h
          cases h1 : compare_group seq group i 100 0 with
          | none => simp [h1] at h
          | some q1 =>
            obtain ⟨ok1, r1⟩ := q1
            simp only [h1] at h
            injection h with h
            injection h with hok hrs
            rw [Bool.and_eq_true] at hok
            obtain ⟨ho1, ho2⟩ := hok
            subst ho1 ho2
            rw [← hrs, compare_group_reports_of_ok seq group i _ _ _ h1, ih _ _ h2]
            rfl

theorem compare_groups_all_match (seq : List Nat) (scattered : List (List Nat)) (n i : Nat)
    (hn : i + n ≤ scattered.length)
    (hall : ∀ k, i ≤ k → k < i + n →
      (scattered.getD k []).length = 100 ∧
      ∀ j, j < 100 → k * 100 + j < seq.length ∧
        (scattered.getD k [])[j]? = seq[k * 100 + j]?) :
    compare_groups seq scattered n i = some (true, []) := by
  obtain ⟨ok, rs, e, p, -⟩ := compare_groups_spec seq scattered n i hn
  have hok : ok = true := p.mpr hall
  subst hok
  rw [e, compare_groups_reports_of_ok seq scattered n i rs e]

theorem integrity_check_all_match (seq : List Nat) (scattered : List (List Nat))
    (h10 : scattered.length = 10) (hs : seq.length = 1000)
    (hall : ∀ k, k < 10 →
      (scattered.getD k []).length = 100 ∧
      ∀ j, j < 100 → (scattered.getD k [])[j]? = seq[k * 100 + j]?) :
    integrity_check seq scattered = some (true, []) := by
  unfold integrity_check
  rw [compare_groups_all_match seq scattered 10 0 (by omega)
    (fun k _ hk => ⟨(hall k (by omega)).1,
      fun j hj => ⟨by omega, (hall k (by omega)).2 j hj⟩⟩)]
  simp [hs]

theorem zeroSequential_length : zeroSequential.length = 1000 :=
  List.length_replicate _ _

theorem zeroSequential_getElem? (i : Nat) (h : i < 1000) : zeroSequential[i]? = some 0 := by
  unfold zeroSequential
  rw [List.getElem?_replicate, if_pos h]

theorem replicate_getElem? (v j : Nat) (h : j < 100) :
    (List.replicate 100 v)[j]? = some v := by
  rw [List.getElem?_replicate, if_pos h]

theorem onesThenZeroGroups_getD (k : Nat) (h1 : 1 ≤ k) (h2 : k < 10) :
    onesThenZeroGroups.getD k [] = List.replicate 100 0 := by
  interval_cases k <;> rfl

theorem mismatchAt_replicate (v k j : Nat) (hk : k < 10) (hj : j < 100) :
    mismatchAt zeroSequential (List.replicate 100 v) k j = (v != 0) := by
  unfold mismatchAt
  rw [replicate_getElem? v j hj, zeroSequential_getElem? _ (by omega)]

theorem compare_group_ones :
    compare_group zeroSequential (List.replicate 100 1) 0 (99 + 1) 0 =
      some (false, [Report.data_mismatch 0 0 1 0]) := by
  rw [compare_group]
  have hb : ¬ 0 * 100 + 0 ≥ zeroSequential.length := by
    rw [zeroSequential_length]
    omega
  rw [if_neg hb, replicate_getElem? 1 0 (by omega),
    zeroSequential_getElem? (0 * 100 + 0) (by omega)]
  rfl

theorem compare_groups_step (seq : List Nat) (scattered : List (List Nat)) (n i : Nat)
    (group : List Nat) (q1 q2 : Bool × List Report)
    (hg : scattered[i]? = some group) (hsz : group.length = 100)
    (h1 : compare_group seq group i 100 0 = some q1)
    (h2 : compare_groups seq scattered n (i + 1) = some q2) :
    compare_groups seq scattered (n + 1) i = some (q1.1 && q2.1, q1.2 ++ q2.2) := by
  rw [compare_groups]
  simp only [hg, h2]
  rw [if_neg (by omega), h1]

theorem integrity_check_of_groups (seq : List Nat) (scattered : List (List Nat))
    (q : Bool × List Report) (hs : seq.length = 1000)
    (h : compare_groups seq scattered 10 0 = some q) :
    integrity_check seq scattered = some q := by
  unfold integrity_check
  rw [h, if_neg (by omega)]
  rfl

theorem compare_groups_ones :
    compare_groups zeroSequential onesThenZeroGroups 10 0 =
      some (false, [Report.data_mismatch 0 0 1 0]) := by
  have hrest : compare_groups zeroSequential onesThenZeroGroups 9 (0 + 1)
      = some (true, []) := by
    apply compare_groups_all_match
    · decide
    · intro k h1 h2
      rw [onesThenZeroGroups_getD k h1 (by omega)]
      refine ⟨List.length_replicate _ _, fun j hj => ⟨?_, ?_⟩⟩
      · rw [zeroSequential_length]
        omega
      · rw [replicate_getElem? 0 j hj, zeroSequential_getElem? _ (by omega)]
  exact compare_groups_step zeroSequential onesThenZeroGroups 9 0 (List.replicate 100 1)
    (false, [Report.data_mismatch 0 0 1 0]) (true, []) rfl (List.length_replicate _ _)
    compare_group_ones hrest

theorem mismatchPairs_ones : mismatchPairs zeroSequential onesThenZeroGroups = 100 := by
  unfold mismatchPairs
  have hf : ∀ k ∈ List.range 10,
      (List.range 100).countP (fun j =>
        mismatchAt zeroSequential (onesThenZeroGroups.getD k []) k j)
      = if k = 0 then 100 else 0 := by
    intro k hk
    rw [List.mem_range] at hk
    by_cases h0 : k = 0
    · subst h0
      rw [if_pos rfl]
      have : onesThenZeroGroups.getD 0 [] = List.replicate 100 1 := rfl
      rw [this, List.countP_eq_length.mpr]
      · exact List.length_range 100
      · intro j hj
        rw [List.mem_range] at hj
        rw [mismatchAt_replicate 1 0 j (by omega) hj]
        rfl
    · rw [if_neg h0, onesThenZeroGroups_getD k (by omega) hk, List.countP_eq_zero]
      intro j hj
      rw [List.mem_range] at hj
      rw [mismatchAt_replicate 0 k j hk hj]
      simp
  rw [List.map_congr_left hf]
  decide

/-- C16 fails as stated: with a sequential result of 1000 zeros and a first
scattered group of 100 ones, the check emits one data-mismatch report (offset
0 of group 0, where the inner loop breaks) while 100 pairs `(k, j)`
mismatch. -/
theorem integrity_check_reports_first_mismatch_only :
    integrity_check zeroSequential onesThenZeroGroups =
      some (false, [Report.data_mismatch 0 0 1 0]) ∧
    mismatchReports [Report.data_mismatch 0 0 1 0] = 1 ∧
    mismatchPairs zeroSequential onesThenZeroGroups = 100 := by
  exact ⟨integrity_check_of_groups _ _ _ zeroSequential_length compare_groups_ones,
    by decide, mismatchPairs_ones⟩

/-- C16, amended: for every sequential result and every ten scattered groups,
the integrity check goes through all ten groups whatever it found in an
earlier one, but within a group it stops at the first problem; the number of
data-mismatch reports it emits equals the number of groups `k` of size 100
that differ from the sequential result at some offset `j` (with `100k+j`
inside the sequential vector): one report per such group, hence at most ten
and at most the number of mismatching pairs `(k, j)`. -/
theorem mismatch_reports_one_per_group (seq : List Nat) (scattered : List (List Nat))
    (h10 : scattered.length = 10) :
    ∃ ok reports, integrity_check seq scattered = some (ok, reports) ∧
      mismatchReports reports = (List.range 10).countP (groupHasMismatch seq scattered) ∧
      mismatchReports reports ≤ 10 ∧
      mismatchReports reports ≤ mismatchPairs seq scattered := by
  obtain ⟨ok, rs, e, -, c⟩ := integrity_check_spec seq scattered h10
  refine ⟨ok, rs, e, c, ?_, ?_⟩
  · rw [c]
    exact (List.countP_le_length _).trans (by simp)
  · rw [c]
    unfold mismatchPairs
    apply countP_le_sum_map
    intro k hk
    unfold groupHasMismatch at hk
    rw [Bool.and_eq_true] at hk
    exact List.countP_pos_iff.mpr (List.any_eq_true.mp hk.2)

/-- Witness of the amended C16: the first group holds ones, everything else
zeros. -/
theorem mismatch_reports_one_per_group_witness :
    onesThenZeroGroups.length = 10 ∧
    ∃ ok reports, integrity_check zeroSequential onesThenZeroGroups = some (ok, reports) ∧
      mismatchReports reports =
        (List.range 10).countP (groupHasMismatch zeroSequential onesThenZeroGroups) ∧
      mismatchReports reports ≤ 10 ∧
      mismatchReports reports ≤ mismatchPairs zeroSequential onesThenZeroGroups :=
  ⟨by decide, mismatch_reports_one_per_group zeroSequential onesThenZeroGroups (by decide)⟩

/-! ## The passes on the D-register memory: claims C17, C12 and C15 -/

theorem memory_batch_write (f : Nat → Int → Bool) (mem : Nat → Nat) (g : Option Handle)
    (addr : Option String) (off : Nat) (n : Int) (data : List Nat)
    (h : d_offset addr = some off) :
    (memoryEngine f).batch_write mem g addr n data =
      (0, store mem off (data.take n.toNat)) := by
  simp [memoryEngine, h]

theorem memory_batch_read_ok (f : Nat → Int → Bool) (mem : Nat → Nat) (g : Option Handle)
    (addr : Option String) (off : Nat) (n : Int) (h : d_offset addr = some off)
    (hf : f off n = false) :
    (memoryEngine f).batch_read mem g addr n = (0, load mem off n.toNat, mem) := by
  simp [memoryEngine, h, hf]

theorem memory_batch_read_fail (f : Nat → Int → Bool) (mem : Nat → Nat) (g : Option Handle)
    (addr : Option String) (off : Nat) (n : Int) (h : d_offset addr = some off)
    (hf : f off n = true) :
    (memoryEngine f).batch_read mem g addr n = (-1, [], mem) := by
  simp [memoryEngine, h, hf]

theorem read_registers_of_failure (M : Engine E) (st : State E) (addr : Option String)
    (n : Int) (data : List Nat) (hv : validate_register_address addr = true)
    (hr : (M.batch_read st.eng st.g_ctx_ addr n).1 ≠ 0) :
    read_batch_d_registers M st addr n data =
      (Outcome.returned false, data,
        { st with eng := (M.batch_read st.eng st.g_ctx_ addr n).2.2,
                  trace := st.trace ++ [Event.lock,
                    Event.batch_read st.g_ctx_ addr n (M.batch_read st.eng st.g_ctx_ addr n).1
                      (M.batch_read st.eng st.g_ctx_ addr n).2.1,
                    Event.unlock] }) := by
  simp [read_batch_d_registers, hv, melcli_batch_read, emit, hr]

theorem write_group_memory (f : Nat → Int → Bool) (st : State (Nat → Nat)) (i : Int)
    (hi : 0 ≤ i) (data : List Nat) (hd : data.length = 100) :
    write_batch_d_registers (memoryEngine f) st (some ("D" ++ to_string i)) 100 data =
      (true, { st with
        eng := store st.eng i.toNat data
        trace := st.trace ++ [Event.lock,
          Event.batch_write st.g_ctx_ (some ("D" ++ to_string i)) 100 data 0,
          Event.unlock] }) := by
  have hs : ¬ data.length < toSizeT 100 := by
    rw [toSizeT_of_nonneg 100 (by omega) (by omega), hd]
    decide
  have ht : data.take (100 : Int).toNat = data := by
    apply List.take_of_length_le
    rw [hd]
    decide
  rw [write_registers_eq _ st _ 100 data (d_address_valid i hi) hs, ht,
    memory_batch_write f _ _ _ _ _ _ (d_offset_address i hi), ht]
  simp

theorem write_register_memory (f : Nat → Int → Bool) (st : State (Nat → Nat)) (i : Int)
    (hi : 0 ≤ i) (value : Nat) :
    write_batch_d_register (memoryEngine f) st (some ("D" ++ to_string i)) value =
      (true, { st with
        eng := store st.eng i.toNat [value]
        trace := st.trace ++ [Event.lock,
          Event.batch_write st.g_ctx_ (some ("D" ++ to_string i)) 1 [value] 0,
          Event.unlock] }) := by
  rw [write_register_eq _ st _ value (d_address_valid i hi),
    memory_batch_write f _ _ _ _ _ _ (d_offset_address i hi)]
  simp

theorem read_group_memory_ok (f : Nat → Int → Bool) (st : State (Nat → Nat)) (i : Int)
    (hi : 0 ≤ i) (slot : List Nat) (hf : f i.toNat 100 = false) :
    ∃ st1, read_batch_d_registers (memoryEngine f) st (some ("D" ++ to_string i)) 100 slot =
        (Outcome.returned true, load st.eng i.toNat 100, st1) ∧ st1.eng = st.eng := by
  have hr := memory_batch_read_ok f st.eng st.g_ctx_ _ _ 100 (d_offset_address i hi) hf
  have h100 : (100 : Int).toNat = 100 := rfl
  rw [h100] at hr
  exact ⟨_, read_registers_full _ st _ 100 slot _ _ (d_address_valid i hi) (by omega)
    (by omega) hr (load_length _ _ _), rfl⟩

theorem read_group_memory_fail (f : Nat → Int → Bool) (st : State (Nat → Nat)) (i : Int)
    (hi : 0 ≤ i) (slot : List Nat) (hf : f i.toNat 100 = true) :
    ∃ st1, read_batch_d_registers (memoryEngine f) st (some ("D" ++ to_string i)) 100 slot =
        (Outcome.returned false, slot, st1) ∧ st1.eng = st.eng := by
  have hr := memory_batch_read_fail f st.eng st.g_ctx_ _ _ 100 (d_offset_address i hi) hf
  refine ⟨_, read_registers_of_failure _ st _ 100 slot (d_address_valid i hi) ?_, ?_⟩
  · rw [hr]
    show (-1 : Int) ≠ 0
    decide
  · show ((memoryEngine f).batch_read st.eng st.g_ctx_ _ 100).2.2 = st.eng
    rw [hr]

theorem read_register_memory (f : Nat → Int → Bool) (st : State (Nat → Nat)) (i : Int)
    (hi : 0 ≤ i) (x : Nat) (hf : f i.toNat 1 = false) :
    ∃ st1, read_batch_d_register (memoryEngine f) st (some ("D" ++ to_string i)) x =
        (true, st.eng i.toNat, st1) ∧ st1.eng = st.eng := by
  have hr := memory_batch_read_ok f st.eng st.g_ctx_ _ _ 1 (d_offset_address i hi) hf
  refine ⟨_, read_register_of_success _ st _ x _ _ (d_address_valid i hi) hr, rfl⟩
theorem register_groups_getElem? (k : Nat) (hk : k < 10) :
    ∃ g, register_groups[k]? = some g ∧ g.start_addr = 100 * (k : Int) + 1 ∧
      g.count = 100 ∧ g.get_address = "D" ++ to_string (100 * (k : Int) + 1) := by
  interval_cases k <;> exact ⟨_, rfl, by decide, by decide, rfl⟩

theorem slice_length (td : List Nat) (k : Nat) (h : (k + 1) * 100 ≤ td.length) :
    ((td.drop (k * 100)).take 100).length = 100 := by
  rw [List.length_take, List.length_drop]
  omega

theorem slice_getD (td : List Nat) (k j : Nat) (hj : j < 100) :
    ((td.drop (k * 100)).take 100).getD j 0 = td.getD (k * 100 + j) 0 := by
  simp only [List.getD_eq_getElem?_getD]
  rw [List.getElem?_take_of_lt hj, List.getElem?_drop]

theorem scattered_write_loop_memory (f : Nat → Int → Bool) (td : List Nat)
    (htd : td.length = 1000) :
    ∀ (ks : List Nat) (st : State (Nat → Nat)), (∀ k ∈ ks, k < 10) →
      ∃ st1, scattered_write_loop (memoryEngine f) td ks st = some st1 ∧
        st1.eng = ks.foldl (fun m k => store m (100 * k + 1) ((td.drop (k * 100)).take 100))
          st.eng ∧
        st1.g_ctx_ = st.g_ctx_ ∧
        st1.trace = st.trace ++ scatteredWriteEvents st.g_ctx_ td ks := by
  intro ks
  induction ks with
  | nil =>
    intro st _
    exact ⟨st, rfl, rfl, rfl, by simp [scatteredWriteEvents]⟩
  | cons k ks ih =>
    intro st hks
    have hk : k < 10 := hks k (List.mem_cons_self _ _)
    obtain ⟨g, hg, hs, -, ha⟩ := register_groups_getElem? k hk
    have hlen : (k + 1) * 100 ≤ td.length := by omega
    have hw := write_group_memory f st (100 * (k : Int) + 1) (by omega)
      ((td.drop (k * 100)).take 100) (slice_length td k hlen)
    have htn : (100 * (k : Int) + 1).toNat = 100 * k + 1 := by omega
    rw [htn] at hw
    obtain ⟨st1, h1, h2, h3, h4⟩ := ih
      { st with
        eng := store st.eng (100 * k + 1) ((td.drop (k * 100)).take 100)
        trace := st.trace ++ [Event.lock,
          Event.batch_write st.g_ctx_ (some ("D" ++ to_string (100 * (k : Int) + 1))) 100
            ((td.drop (k * 100)).take 100) 0,
          Event.unlock] }
      (fun k' hk' => hks k' (List.mem_cons_of_mem _ hk'))
    refine ⟨st1, ?_, ?_, h3, ?_⟩
    · rw [scattered_write_loop, hg]
      simp only [hlen, if_true, ha, hw]
      exact h1
    · rw [h2, List.foldl_cons]
    · rw [h4]
      simp [scatteredWriteEvents]

theorem foldl_store_groups (td : List Nat) :
    ∀ (ks : List Nat) (mem : Nat → Nat) (a : Nat), (∀ k ∈ ks, (k + 1) * 100 ≤ td.length) →
      (ks.foldl (fun m k => store m (100 * k + 1) ((td.drop (k * 100)).take 100)) mem) a =
        if ∃ k ∈ ks, 100 * k + 1 ≤ a ∧ a ≤ 100 * k + 100 then td.getD (a - 1) 0
        else mem a := by
  intro ks
  induction ks with
  | nil => intro mem a _; simp
  | cons k ks ih =>
    intro mem a hks
    rw [List.foldl_cons, ih _ a (fun k' hk' => hks k' (List.mem_cons_of_mem _ hk'))]
    have hlen := slice_length td k (hks k (List.mem_cons_self _ _))
    by_cases h1 : ∃ k' ∈ ks, 100 * k' + 1 ≤ a ∧ a ≤ 100 * k' + 100
    · have h2 : ∃ k' ∈ k :: ks, 100 * k' + 1 ≤ a ∧ a ≤ 100 * k' + 100 := by
        obtain ⟨k', hk', hr⟩ := h1
        exact ⟨k', List.mem_cons_of_mem _ hk', hr⟩
      rw [if_pos h1, if_pos h2]
    · rw [if_neg h1]
      by_cases h3 : 100 * k + 1 ≤ a ∧ a ≤ 100 * k + 100
      · have h2 : ∃ k' ∈ k :: ks, 100 * k' + 1 ≤ a ∧ a ≤ 100 * k' + 100 :=
          ⟨k, List.mem_cons_self _ _, h3⟩
        rw [if_pos h2]
        have hin : 100 * k + 1 ≤ a ∧ a < 100 * k + 1 + ((td.drop (k * 100)).take 100).length := by
          rw [hlen]; omega
        simp only [store, hin, and_self, if_true]
        rw [slice_getD td k _ (by omega)]
        congr 1
        omega
      · have h2 : ¬ ∃ k' ∈ k :: ks, 100 * k' + 1 ≤ a ∧ a ≤ 100 * k' + 100 := by
          rintro ⟨k', hk', hr⟩
          rcases List.mem_cons.mp hk' with rfl | hk'
          · exact h3 hr
          · exact h1 ⟨k', hk', hr⟩
        rw [if_neg h2]
        have hin : ¬ (100 * k + 1 ≤ a ∧
            a < 100 * k + 1 + ((td.drop (k * 100)).take 100).length) := by
          rw [hlen]; omega
        simp only [store, hin, if_false]

theorem scattered_write_pass_memory (f : Nat → Int → Bool) (td : List Nat)
    (htd : td.length = 1000) (st : State (Nat → Nat)) :
    ∃ st1, scattered_write_pass (memoryEngine f) st td = some st1 ∧
      st1.eng = written td st.eng ∧ st1.g_ctx_ = st.g_ctx_ ∧
      st1.trace = st.trace ++ scatteredWriteEvents st.g_ctx_ td scattered_pattern := by
  have hp : ∀ k ∈ scattered_pattern, k < 10 := by decide
  obtain ⟨st1, h1, h2, h3, h4⟩ := scattered_write_loop_memory f td htd scattered_pattern st hp
  refine ⟨st1, h1, ?_, h3, h4⟩
  rw [h2]
  funext a
  rw [foldl_store_groups td scattered_pattern st.eng a
    (fun k hk => by have := hp k hk; omega)]
  unfold written
  by_cases ha : 1 ≤ a ∧ a ≤ 1000
  · have hall : ∀ k, k < 10 → k ∈ scattered_pattern := by decide
    have : ∃ k ∈ scattered_pattern, 100 * k + 1 ≤ a ∧ a ≤ 100 * k + 100 :=
      ⟨(a - 1) / 100, hall _ (by omega), by omega⟩
    rw [if_pos this, if_pos ha]
  · have : ¬ ∃ k ∈ scattered_pattern, 100 * k + 1 ≤ a ∧ a ≤ 100 * k + 100 := by
      rintro ⟨k, hk, hr⟩
      have := hp k hk
      omega
    rw [if_neg this, if_neg ha]
theorem sequential_write_loop_memory (f : Nat → Int → Bool) (td : List Nat) :
    ∀ (n : Nat) (i : Int) (st : State (Nat → Nat)), 1 ≤ i → (i - 1).toNat + n ≤ td.length →
      ∃ st1, sequential_write_loop (memoryEngine f) td n i st = some st1 ∧
        (∀ a, st1.eng a =
          if i.toNat ≤ a ∧ a < i.toNat + n then td.getD (a - 1) 0 else st.eng a) ∧
        batchWriteCalls st1.trace = batchWriteCalls st.trace + n := by
  intro n
  induction n with
  | zero =>
    intro i st _ _
    refine ⟨st, rfl, fun a => ?_, rfl⟩
    rw [if_neg (by omega)]
  | succ n ih =>
    intro i st hi hlen
    have hlt : (i - 1).toNat < td.length := by omega
    have hw := write_register_memory f st i (by omega) td[(i - 1).toNat]
    obtain ⟨st1, h1, h2, h3⟩ := ih (i + 1)
      { st with
        eng := store st.eng i.toNat [td[(i - 1).toNat]]
        trace := st.trace ++ [Event.lock,
          Event.batch_write st.g_ctx_ (some ("D" ++ to_string i)) 1 [td[(i - 1).toNat]] 0,
          Event.unlock] }
      (by omega) (by omega)
    refine ⟨st1, ?_, ?_, ?_⟩
    · rw [sequential_write_loop, List.getElem?_eq_getElem hlt]
      simp only [hw]
      exact h1
    · intro a
      rw [h2 a]
      by_cases ha : a = i.toNat
      · subst ha
        rw [if_neg (by omega), if_pos (by omega)]
        have e : i.toNat - 1 = (i - 1).toNat := by omega
        rw [e]
        show store st.eng i.toNat [td[(i - 1).toNat]] i.toNat = td.getD (i - 1).toNat 0
        unfold store
        rw [if_pos ⟨le_refl _, by simp⟩, Nat.sub_self, List.getD_eq_getElem?_getD,
          List.getD_eq_getElem?_getD, List.getElem?_eq_getElem hlt]
        rfl
      · by_cases hr : (i + 1).toNat ≤ a ∧ a < (i + 1).toNat + n
        · rw [if_pos hr, if_pos (by omega)]
        · rw [if_neg hr, if_neg (by omega)]
          show store st.eng i.toNat [td[(i - 1).toNat]] a = st.eng a
          unfold store
          rw [if_neg]
          rw [List.length_singleton]
          omega
    · rw [h3]
      simp [batchWriteCalls, List.countP_append, List.countP_cons, Event.isBatchWrite]
      omega

theorem sequential_write_pass_memory (f : Nat → Int → Bool) (td : List Nat)
    (htd : td.length = 1000) (st : State (Nat → Nat)) :
    ∃ st1, sequential_write_pass (memoryEngine f) st td = some st1 ∧
      st1.eng = written td st.eng ∧
      batchWriteCalls st1.trace = batchWriteCalls st.trace + 1000 := by
  obtain ⟨st1, h1, h2, h3⟩ :=
    sequential_write_loop_memory f td 1000 1 st (by omega) (by omega)
  refine ⟨st1, h1, ?_, h3⟩
  funext a
  rw [h2 a]
  unfold written
  have e : (1 : Int).toNat = 1 := rfl
  rw [e]
  by_cases ha : 1 ≤ a ∧ a ≤ 1000
  · rw [if_pos (by omega), if_pos ha]
  · rw [if_neg (by omega), if_neg ha]

theorem written_written (td : List Nat) (mem : Nat → Nat) :
    written td (written td mem) = written td mem := by
  funext a
  unfold written
  by_cases ha : 1 ≤ a ∧ a ≤ 1000
  · rw [if_pos ha, if_pos ha]
  · rw [if_neg ha, if_neg ha]

theorem load_succ (mem : Nat → Nat) (off n : Nat) :
    load mem off (n + 1) = mem off :: load mem (off + 1) n := by
  apply List.ext_getElem?
  intro i
  cases i with
  | zero => simp [load]
  | succ i =>
    rw [List.getElem?_cons_succ]
    by_cases h : i < n
    · rw [load_getElem? _ _ _ _ (by omega), load_getElem? _ _ _ _ h]
      congr 2
      omega
    · rw [List.getElem?_eq_none (by rw [load_length]; omega),
        List.getElem?_eq_none (by rw [load_length]; omega)]

theorem sequential_read_loop_memory (f : Nat → Int → Bool) (hf : ∀ off, f off 1 = false) :
    ∀ (n : Nat) (i : Int) (st : State (Nat → Nat)) (out : List Nat), 0 ≤ i →
      ∃ st1, sequential_read_loop (memoryEngine f) n i st out =
          (st1, out ++ load st.eng i.toNat n) ∧ st1.eng = st.eng := by
  intro n
  induction n with
  | zero =>
    intro i st out _
    exact ⟨st, by simp [sequential_read_loop, load], rfl⟩
  | succ n ih =>
    intro i st out hi
    obtain ⟨st1, h1, h2⟩ := read_register_memory f st i hi 0 (hf _)
    obtain ⟨st2, h3, h4⟩ := ih (i + 1) st1 (out ++ [st.eng i.toNat]) (by omega)
    refine ⟨st2, ?_, h4.trans h2⟩
    rw [sequential_read_loop]
    simp only [h1, if_true]
    rw [h3, h2, load_succ]
    have : (i + 1).toNat = i.toNat + 1 := by omega
    rw [this]
    simp

theorem sequential_read_pass_memory (f : Nat → Int → Bool) (hf : ∀ off, f off 1 = false)
    (st : State (Nat → Nat)) :
    ∃ st1, sequential_read_pass (memoryEngine f) st = (st1, load st.eng 1 1000) ∧
      st1.eng = st.eng := by
  obtain ⟨st1, h1, h2⟩ := sequential_read_loop_memory f hf 1000 1 st [] (by omega)
  have e : (1 : Int).toNat = 1 := rfl
  rw [List.nil_append, e] at h1
  unfold sequential_read_pass
  exact ⟨st1, h1, h2⟩
theorem scattered_read_loop_memory (f : Nat → Int → Bool) :
    ∀ (ks : List Nat) (st : State (Nat → Nat)) (data : List (List Nat)),
      (∀ k ∈ ks, k < 10) → data.length = 10 →
      ∃ st1, scattered_read_loop (memoryEngine f) ks st data =
          some (st1, ks.foldl (fun d k => d.set k (groupRead f st.eng k (d.getD k []))) data) ∧
        st1.eng = st.eng := by
  intro ks
  induction ks with
  | nil =>
    intro st data _ _
    exact ⟨st, rfl, rfl⟩
  | cons k ks ih =>
    intro st data hks hlen
    have hk : k < 10 := hks k (List.mem_cons_self _ _)
    obtain ⟨g, hg, -, -, ha⟩ := register_groups_getElem? k hk
    have hkl : k < data.length := by omega
    have hslot : data[k]? = some (data.getD k []) := by
      rw [getD_nil_eq_getElem data k hkl, List.getElem?_eq_getElem hkl]
    have htn : (100 * (k : Int) + 1).toNat = 100 * k + 1 := by omega
    rw [List.foldl_cons]
    by_cases hf : f (100 * k + 1) 100 = true
    · obtain ⟨st1, h1, h2⟩ := read_group_memory_fail f st (100 * (k : Int) + 1) (by omega)
        (data.getD k []) (by rw [htn]; exact hf)
      obtain ⟨st2, h3, h4⟩ := ih st1 (data.set k (resize_fill (data.getD k []) 100 0))
        (fun k' hk' => hks k' (List.mem_cons_of_mem _ hk')) (by rw [List.length_set]; exact hlen)
      refine ⟨st2, ?_, h4.trans h2⟩
      rw [scattered_read_loop]
      simp only [hg, hslot, ha, h1]
      rw [h3, h2]
      simp only [groupRead, hf, if_true]
    · obtain ⟨st1, h1, h2⟩ := read_group_memory_ok f st (100 * (k : Int) + 1) (by omega)
        (data.getD k []) (by rw [htn]; simpa using hf)
      rw [htn] at h1
      obtain ⟨st2, h3, h4⟩ := ih st1 (data.set k (load st.eng (100 * k + 1) 100))
        (fun k' hk' => hks k' (List.mem_cons_of_mem _ hk')) (by rw [List.length_set]; exact hlen)
      refine ⟨st2, ?_, h4.trans h2⟩
      rw [scattered_read_loop]
      simp only [hg, hslot, ha, h1]
      rw [h3, h2]
      simp only [groupRead, hf]
      rfl

theorem foldl_set_length (h : Nat → List Nat → List Nat) :
    ∀ (ks : List Nat) (data : List (List Nat)),
      (ks.foldl (fun d k => d.set k (h k (d.getD k []))) data).length = data.length := by
  intro ks
  induction ks with
  | nil => intro data; rfl
  | cons k ks ih =>
    intro data
    rw [List.foldl_cons, ih, List.length_set]

theorem foldl_set_getD (h : Nat → List Nat → List Nat) :
    ∀ (ks : List Nat) (data : List (List Nat)) (k : Nat), ks.Nodup → k ∈ ks →
      k < data.length →
      (ks.foldl (fun d k => d.set k (h k (d.getD k []))) data).getD k [] =
        h k (data.getD k []) := by
  have keep : ∀ (ks : List Nat) (data : List (List Nat)) (k : Nat), k ∉ ks →
      (ks.foldl (fun d k => d.set k (h k (d.getD k []))) data).getD k [] = data.getD k [] := by
    intro ks
    induction ks with
    | nil => intro data k _; rfl
    | cons k0 ks ih =>
      intro data k hk
      rw [List.foldl_cons, ih _ k (fun hm => hk (List.mem_cons_of_mem _ hm))]
      have hne : k0 ≠ k := fun e => hk (e ▸ List.mem_cons_self _ _)
      simp only [List.getD_eq_getElem?_getD]
      rw [List.getElem?_set_ne hne]
  intro ks
  induction ks with
  | nil => intro data k _ hk; simp at hk
  | cons k0 ks ih =>
    intro data k hnd hk hlt
    rw [List.foldl_cons]
    rw [List.nodup_cons] at hnd
    by_cases he : k = k0
    · subst he
      rw [keep ks _ k hnd.1]
      simp only [List.getD_eq_getElem?_getD]
      rw [List.getElem?_set_self hlt]
      rfl
    · have hk' : k ∈ ks := by
        rcases List.mem_cons.mp hk with h1 | h1
        · exact absurd h1 he
        · exact h1
      rw [ih _ k hnd.2 hk' (by rw [List.length_set]; exact hlt)]
      simp only [List.getD_eq_getElem?_getD]
      rw [List.getElem?_set_ne (fun e => he e.symm)]

theorem scattered_read_pass_memory (f : Nat → Int → Bool) (st : State (Nat → Nat)) :
    ∃ st1 scattered, scattered_read_pass (memoryEngine f) st = some (st1, scattered) ∧
      st1.eng = st.eng ∧ scattered.length = 10 ∧
      ∀ k, k < 10 → scattered.getD k [] = groupRead f st.eng k [] := by
  have hp : ∀ k ∈ scattered_pattern, k < 10 := by decide
  have hl : (List.replicate 10 ([] : List Nat)).length = 10 := List.length_replicate _ _
  obtain ⟨st1, h1, h2⟩ := scattered_read_loop_memory f scattered_pattern st _ hp hl
  refine ⟨st1, _, h1, h2, ?_, ?_⟩
  · rw [foldl_set_length (groupRead f st.eng), hl]
  · intro k hk
    have hall : ∀ k, k < 10 → k ∈ scattered_pattern := by decide
    rw [foldl_set_getD (groupRead f st.eng) scattered_pattern _ k (by decide) (hall k hk)
      (by rw [hl]; exact hk)]
    congr 1
    simp only [List.getD_eq_getElem?_getD]
    rw [List.getElem?_replicate, if_pos hk]
    rfl
theorem read_and_check_memory (f : Nat → Int → Bool) (hf : ∀ off, f off 1 = false)
    (st : State (Nat → Nat)) :
    ∃ r, read_and_check (memoryEngine f) st = some r ∧ r.st.eng = st.eng ∧
      r.scattered_read_data.length = 10 ∧
      (∀ k, k < 10 → r.scattered_read_data.getD k [] = groupRead f st.eng k []) ∧
      r.sequential_read_data = load st.eng 1 1000 ∧
      integrity_check r.sequential_read_data r.scattered_read_data =
        some (r.integrity_ok, r.reports) := by
  obtain ⟨st1, sc, h1, h2, h3, h4⟩ := scattered_read_pass_memory f st
  obtain ⟨st2, h5, h6⟩ := sequential_read_pass_memory f hf st1
  rw [h2] at h5
  obtain ⟨seq, hseq⟩ : ∃ seq, seq = load st.eng 1 1000 := ⟨_, rfl⟩
  rw [← hseq] at h5
  obtain ⟨ok, rs, h7, -, -⟩ := integrity_check_spec seq sc h3
  refine ⟨{ st := st2, scattered_read_data := sc, sequential_read_data := seq,
            integrity_ok := ok, reports := rs }, ?_, h6.trans h2, h3, h4, hseq, h7⟩
  unfold read_and_check
  rw [h1]
  simp only [h5, h7]

theorem load_written (td : List Nat) (mem : Nat → Nat) (htd : td.length = 1000) :
    load (written td mem) 1 1000 = td := by
  apply List.ext_getElem?
  intro i
  by_cases hi : i < 1000
  · rw [load_getElem? _ _ _ _ hi, List.getElem?_eq_getElem (by omega)]
    unfold written
    rw [if_pos (by omega), List.getD_eq_getElem?_getD,
      List.getElem?_eq_getElem (by omega)]
    simp
  · rw [List.getElem?_eq_none (by rw [load_length]; omega),
      List.getElem?_eq_none (by omega)]

theorem run_cycle_memory (f : Nat → Int → Bool) (hf : ∀ off, f off 1 = false)
    (st : State (Nat → Nat)) (td : List Nat) (htd : td.length = 1000) :
    ∃ r, run_cycle (memoryEngine f) st td = some r ∧ r.st.eng = written td st.eng ∧
      r.scattered_read_data.length = 10 ∧
      (∀ k, k < 10 →
        r.scattered_read_data.getD k [] = groupRead f (written td st.eng) k []) ∧
      r.sequential_read_data = td ∧
      integrity_check r.sequential_read_data r.scattered_read_data =
        some (r.integrity_ok, r.reports) := by
  obtain ⟨st1, h1, h2, -, -⟩ := scattered_write_pass_memory f td htd st
  obtain ⟨st2, h3, h4, -⟩ := sequential_write_pass_memory f td htd st1
  obtain ⟨r, h5, h6, h7, h8, h9, h10⟩ := read_and_check_memory f hf st2
  rw [h4, h2, written_written] at h6 h8 h9
  rw [load_written td _ htd] at h9
  refine ⟨r, ?_, h6, h7, h8, h9, h10⟩
  unfold run_cycle
  rw [h1]
  simp only [h3]
  exact h5

theorem groupRead_ideal (mem : Nat → Nat) (k : Nat) (slot : List Nat) :
    groupRead (fun _ _ => false) mem k slot = load mem (100 * k + 1) 100 := by
  simp [groupRead]

theorem groupRead_faulty (bad : Nat) (mem : Nat → Nat) (k : Nat) :
    groupRead (fun off num => decide (off = 100 * bad + 1) && decide (num = 100)) mem k [] =
      if k = bad then List.replicate 100 0 else load mem (100 * k + 1) 100 := by
  unfold groupRead
  by_cases hk : k = bad
  · subst hk
    simp [resize_fill]
  · have : ¬ (100 * k + 1 = 100 * bad + 1) := by omega
    simp [this, hk]

theorem integrity_loaded (mem : Nat → Nat) (scattered : List (List Nat))
    (h10 : scattered.length = 10)
    (hall : ∀ k, k < 10 → scattered.getD k [] = load mem (100 * k + 1) 100) :
    integrity_check (load mem 1 1000) scattered = some (true, []) := by
  apply integrity_check_all_match _ _ h10 (load_length _ _ _)
  intro k hk
  rw [hall k hk]
  refine ⟨load_length _ _ _, fun j hj => ?_⟩
  rw [load_getElem? _ _ _ _ hj, load_getElem? _ _ _ _ (by omega)]
  congr 2
  omega

theorem integrity_one_zeroed (mem : Nat → Nat) (scattered : List (List Nat)) (bad : Nat)
    (hbad : bad < 10) (h10 : scattered.length = 10)
    (hall : ∀ k, k < 10 → scattered.getD k [] =
      if k = bad then List.replicate 100 0 else load mem (100 * k + 1) 100)
    (ok : Bool) (rs : List Report)
    (h : integrity_check (load mem 1 1000) scattered = some (ok, rs)) :
    (ok = false ↔ ∃ j, j < 100 ∧ mem (100 * bad + 1 + j) ≠ 0) ∧ (ok = true → rs = []) := by
  obtain ⟨ok1, rs1, e, p, -⟩ := integrity_check_spec (load mem 1 1000) scattered h10
  rw [h] at e
  injection e with e
  injection e with e1 e2
  subst e1 e2
  have good : ∀ k, k < 10 → k ≠ bad → (scattered.getD k []).length = 100 ∧
      ∀ j, j < 100 → k * 100 + j < (load mem 1 1000).length ∧
        (scattered.getD k [])[j]? = (load mem 1 1000)[k * 100 + j]? := by
    intro k hk hne
    rw [hall k hk, if_neg hne]
    refine ⟨load_length _ _ _, fun j hj => ⟨by rw [load_length]; omega, ?_⟩⟩
    rw [load_getElem? _ _ _ _ hj, load_getElem? _ _ _ _ (by omega)]
    congr 2
    omega
  constructor
  · constructor
    · intro hok
      by_contra hno
      have hz : ∀ j, j < 100 → mem (100 * bad + 1 + j) = 0 := by
        intro j hj
        by_contra hne
        exact hno ⟨j, hj, hne⟩
      have : ok = true := by
        rw [p]
        refine ⟨load_length _ _ _, fun k hk => ?_⟩
        by_cases hkb : k = bad
        · subst hkb
          rw [hall k hk, if_pos rfl]
          refine ⟨List.length_replicate _ _, fun j hj => ⟨by rw [load_length]; omega, ?_⟩⟩
          rw [List.getElem?_replicate, if_pos hj, load_getElem? _ _ _ _ (by omega)]
          have := hz j hj
          rw [← this]
          congr 2
          omega
        · exact good k hk hkb
      rw [this] at hok
      cases hok
    · rintro ⟨j, hj, hne⟩
      by_contra hok
      have hok' : ok = true := by
        cases ok
        · exact absurd rfl hok
        · rfl
      have h1 := ((p.mp hok').2 bad hbad).2 j hj
      rw [hall bad hbad, if_pos rfl, List.getElem?_replicate, if_pos hj,
        load_getElem? _ _ _ _ (by omega)] at h1
      apply hne
      have h2 := (Option.some.inj h1.2).symm
      rw [← h2]
      congr 1
      omega
  · intro hok
    subst hok
    unfold integrity_check at h
    cases hc : compare_groups (load mem 1 1000) scattered 10 0 with
    | none => simp [hc] at h
    | some q =>
      obtain ⟨ok2, r2⟩ := q
      have hl : (load mem 1 1000).length = 1000 := load_length _ _ _
      simp only [hc, hl] at h
      simp at h
      obtain ⟨h1, h2⟩ := h
      subst h1
      rw [← h2]
      exact compare_groups_reports_of_ok _ _ _ _ _ hc

theorem scatteredWriteEvents_calls (g : Option Handle) (td : List Nat) :
    ∀ ks : List Nat, batchWriteCalls (scatteredWriteEvents g td ks) = ks.length := by
  intro ks
  induction ks with
  | nil => rfl
  | cons k ks ih =>
    unfold scatteredWriteEvents batchWriteCalls at ih ⊢
    rw [List.flatMap_cons, List.countP_append, ih]
    simp [List.countP_cons, Event.isBatchWrite]
    omega

/-- C17: for every client state on the ideal D-register memory and every test
data of 1000 words: the order `0,5,1,6,2,7,3,8,4,9` is a permutation of
`0..9`; group `k` starts at `D(100k+1)` with 100 registers, so every register
`D1..D1000` lies in exactly one group; the scattered write pass makes ten
batched writes, the one for pattern entry `k` sending
`test_data[100k .. 100k+100)` to `D(100k+1)`; after it register `D(i)` holds
`test_data[i-1]` for every `i` in `[1,1000]` and no other register has
changed; and the sequential write pass of 1000 single writes, from the same
start, ends in the same memory, and run after the scattered pass leaves that
memory as it is. -/
theorem scattered_write_pass_covers (st : State (Nat → Nat)) (test_data : List Nat)
    (htd : test_data.length = 1000) :
    scattered_pattern.Perm (List.range 10) ∧
    (∀ k : Nat, k < 10 → ∃ g, register_groups[k]? = some g ∧
      g.start_addr = 100 * (k : Int) + 1 ∧ g.count = 100 ∧
      g.get_address = "D" ++ to_string (100 * (k : Int) + 1)) ∧
    (∀ i : Nat, 1 ≤ i → i ≤ 1000 → ∃! k, k < 10 ∧ 100 * k + 1 ≤ i ∧ i ≤ 100 * k + 100) ∧
    ∃ st1 st2 st3,
      scattered_write_pass idealEngine st test_data = some st1 ∧
      st1.trace = st.trace ++ scatteredWriteEvents st.g_ctx_ test_data scattered_pattern ∧
      batchWriteCalls st1.trace = batchWriteCalls st.trace + 10 ∧
      (∀ i, 1 ≤ i → i ≤ 1000 → test_data[i - 1]? = some (st1.eng i)) ∧
      (∀ a, ¬ (1 ≤ a ∧ a ≤ 1000) → st1.eng a = st.eng a) ∧
      sequential_write_pass idealEngine st test_data = some st2 ∧
      batchWriteCalls st2.trace = batchWriteCalls st.trace + 1000 ∧
      st2.eng = st1.eng ∧
      sequential_write_pass idealEngine st1 test_data = some st3 ∧
      st3.eng = st1.eng := by
  refine ⟨by decide, register_groups_getElem?, ?_, ?_⟩
  · intro i h1 h2
    exact ⟨(i - 1) / 100, by omega, fun k hk => by omega⟩
  · obtain ⟨st1, a1, a2, -, a4⟩ :=
      scattered_write_pass_memory (fun _ _ => false) test_data htd st
    obtain ⟨st2, b1, b2, b3⟩ :=
      sequential_write_pass_memory (fun _ _ => false) test_data htd st
    obtain ⟨st3, c1, c2, -⟩ :=
      sequential_write_pass_memory (fun _ _ => false) test_data htd st1
    refine ⟨st1, st2, st3, a1, a4, ?_, ?_, ?_, b1, b3, b2.trans a2.symm, c1, ?_⟩
    · rw [a4]
      unfold batchWriteCalls
      rw [List.countP_append]
      have := scatteredWriteEvents_calls st.g_ctx_ test_data scattered_pattern
      unfold batchWriteCalls at this
      rw [this]
      rfl
    · intro i h1 h2
      rw [a2]
      unfold written
      rw [if_pos ⟨h1, h2⟩, List.getD_eq_getElem?_getD,
        List.getElem?_eq_getElem (by omega)]
      rfl
    · intro a ha
      rw [a2]
      unfold written
      rw [if_neg ha]
    · rw [c2, a2, written_written]

/-- Witness of C17: a cycle whose 1000 draws are all `7`, on a memory of
zeros. -/
theorem scattered_write_pass_covers_witness :
    sevensTestData.length = 1000 ∧
    ∃ st1, scattered_write_pass idealEngine memoryClient sevensTestData = some st1 ∧
      ∀ i, 1 ≤ i → i ≤ 1000 → sevensTestData[i - 1]? = some (st1.eng i) := by
  refine ⟨List.length_replicate _ _, ?_⟩
  obtain ⟨-, -, -, st1, -, -, h1, -, -, h2, -⟩ :=
    scattered_write_pass_covers memoryClient sevensTestData (List.length_replicate _ _)
  exact ⟨st1, h1, h2⟩

theorem loaded_group_getElem? (mem : Nat → Nat) (scattered : List (List Nat)) (k j : Nat)
    (hk : k < scattered.length) (hj : j < 100)
    (h : scattered.getD k [] = load mem (100 * k + 1) 100) :
    (scattered[k]?).bind (fun g => g[j]?) = some (mem (100 * k + j + 1)) := by
  rw [List.getElem?_eq_getElem hk, Option.some_bind, ← getD_nil_eq_getElem scattered k hk, h,
    load_getElem? _ _ _ _ hj]
  congr 2
  omega

theorem ideal_reads_agree (r : CycleResult (Nat → Nat)) (mem : Nat → Nat)
    (h10 : r.scattered_read_data.length = 10)
    (hall : ∀ k, k < 10 →
      r.scattered_read_data.getD k [] = groupRead (fun _ _ => false) mem k [])
    (hseq : r.sequential_read_data = load mem 1 1000)
    (hchk : integrity_check r.sequential_read_data r.scattered_read_data =
      some (r.integrity_ok, r.reports)) :
    r.sequential_read_data.length = 1000 ∧
    (∀ k, k < 10 → ∀ j, j < 100 →
      (r.scattered_read_data[k]?).bind (fun g => g[j]?) = some (mem (100 * k + j + 1))) ∧
    (∀ k, k < 10 → ∀ j, j < 100 →
      r.sequential_read_data[100 * k + j]? = some (mem (100 * k + j + 1))) ∧
    (∀ k, k < 10 → ∀ j, j < 100 →
      (r.scattered_read_data[k]?).bind (fun g => g[j]?) =
        r.sequential_read_data[100 * k + j]?) ∧
    r.integrity_ok = true ∧ r.reports = [] := by
  have hall' : ∀ k, k < 10 →
      r.scattered_read_data.getD k [] = load mem (100 * k + 1) 100 := by
    intro k hk
    rw [hall k hk, groupRead_ideal]
  have hs : ∀ k, k < 10 → ∀ j, j < 100 →
      (r.scattered_read_data[k]?).bind (fun g => g[j]?) = some (mem (100 * k + j + 1)) :=
    fun k hk j hj => loaded_group_getElem? mem _ k j (by omega) hj (hall' k hk)
  have hq : ∀ k, k < 10 → ∀ j, j < 100 →
      r.sequential_read_data[100 * k + j]? = some (mem (100 * k + j + 1)) := by
    intro k hk j hj
    rw [hseq, load_getElem? _ _ _ _ (by omega)]
    congr 2
    omega
  have hi := integrity_loaded mem r.scattered_read_data h10 hall'
  rw [← hseq, hchk] at hi
  injection hi with hi
  injection hi with hi1 hi2
  refine ⟨by rw [hseq, load_length], hs, hq, ?_, hi1, hi2⟩
  intro k hk j hj
  rw [hs k hk j hj, hq k hk j hj]

/-- C12: with the engine an ideal D-register memory (which the reads leave
unchanged), for every client state the scattered read pass (ten batched reads
of 100 registers in the order `0,5,1,6,2,7,3,8,4,9`) followed by the
sequential read pass (1000 single reads of `D1..D1000`) yields
`scattered[k][j] == sequential[100k+j]`, both being the content of register
`D(100k+j+1)`, for every `k` in `[0,10)` and `j` in `[0,100)`, and the
integrity check ends with `integrity_ok = true` and no report; the same holds
at the end of a whole cycle (write passes first) for every test data of 1000
words, where the sequential result is the test data itself. -/
theorem scattered_read_equals_sequential (st : State (Nat → Nat)) :
    (∃ r, read_and_check idealEngine st = some r ∧ r.st.eng = st.eng ∧
      r.scattered_read_data.length = 10 ∧ r.sequential_read_data.length = 1000 ∧
      (∀ k, k < 10 → ∀ j, j < 100 →
        (r.scattered_read_data[k]?).bind (fun g => g[j]?) =
          some (st.eng (100 * k + j + 1))) ∧
      (∀ k, k < 10 → ∀ j, j < 100 →
        r.sequential_read_data[100 * k + j]? = some (st.eng (100 * k + j + 1))) ∧
      (∀ k, k < 10 → ∀ j, j < 100 →
        (r.scattered_read_data[k]?).bind (fun g => g[j]?) =
          r.sequential_read_data[100 * k + j]?) ∧
      r.integrity_ok = true ∧ r.reports = []) ∧
    (∀ test_data : List Nat, test_data.length = 1000 →
      ∃ r, run_cycle idealEngine st test_data = some r ∧
        r.scattered_read_data.length = 10 ∧ r.sequential_read_data = test_data ∧
        (∀ k, k < 10 → ∀ j, j < 100 →
          (r.scattered_read_data[k]?).bind (fun g => g[j]?) =
            r.sequential_read_data[100 * k + j]?) ∧
        r.integrity_ok = true ∧ r.reports = []) := by
  constructor
  · obtain ⟨r, h1, h2, h3, h4, h5, h6⟩ :=
      read_and_check_memory (fun _ _ => false) (fun _ => rfl) st
    obtain ⟨a1, a2, a3, a4, a5, a6⟩ := ideal_reads_agree r st.eng h3 h4 h5 h6
    exact ⟨r, h1, h2, h3, a1, a2, a3, a4, a5, a6⟩
  · intro td htd
    obtain ⟨r, h1, -, h3, h4, h5, h6⟩ :=
      run_cycle_memory (fun _ _ => false) (fun _ => rfl) st td htd
    have h5' : r.sequential_read_data = load (written td st.eng) 1 1000 := by
      rw [h5, load_written td _ htd]
    obtain ⟨-, -, -, a4, a5, a6⟩ := ideal_reads_agree r (written td st.eng) h3 h4 h5' h6
    exact ⟨r, h1, h3, h5, a4, a5, a6⟩

theorem faulty_reads (r : CycleResult (Nat → Nat)) (mem : Nat → Nat) (bad : Nat)
    (hbad : bad < 10) (h10 : r.scattered_read_data.length = 10)
    (hall : ∀ k, k < 10 → r.scattered_read_data.getD k [] =
      groupRead (fun off num => decide (off = 100 * bad + 1) && decide (num = 100)) mem k [])
    (hseq : r.sequential_read_data = load mem 1 1000)
    (hchk : integrity_check r.sequential_read_data r.scattered_read_data =
      some (r.integrity_ok, r.reports)) :
    r.scattered_read_data.getD bad [] = List.replicate 100 0 ∧
    (∀ k, k < 10 → k ≠ bad →
      r.scattered_read_data.getD k [] = load mem (100 * k + 1) 100 ∧
      ∀ j, j < 100 →
        (r.scattered_read_data[k]?).bind (fun g => g[j]?) =
          r.sequential_read_data[100 * k + j]?) ∧
    (r.integrity_ok = false ↔ ∃ j, j < 100 ∧ mem (100 * bad + 1 + j) ≠ 0) ∧
    (r.integrity_ok = true → r.reports = []) := by
  have hall' : ∀ k, k < 10 → r.scattered_read_data.getD k [] =
      if k = bad then List.replicate 100 0 else load mem (100 * k + 1) 100 := by
    intro k hk
    rw [hall k hk, groupRead_faulty]
  rw [hseq] at hchk
  obtain ⟨b1, b2⟩ := integrity_one_zeroed mem r.scattered_read_data bad hbad h10 hall'
    r.integrity_ok r.reports hchk
  refine ⟨?_, ?_, b1, b2⟩
  · rw [hall' bad hbad, if_pos rfl]
  · intro k hk hne
    have hk' := hall' k hk
    rw [if_neg hne] at hk'
    refine ⟨hk', fun j hj => ?_⟩
    rw [loaded_group_getElem? mem _ k j (by omega) hj hk', hseq,
      load_getElem? _ _ _ _ (by omega)]
    congr 2
    omega

theorem faulty_scalar_reads (bad : Nat) (off : Nat) :
    (fun (o : Nat) (num : Int) => decide (o = 100 * bad + 1) && decide (num = 100)) off 1
      = false := by
  simp

theorem zeroTestData_getD (i : Nat) : zeroTestData.getD i 0 = 0 := by
  unfold zeroTestData
  rw [List.getD_eq_getElem?_getD, List.getElem?_replicate]
  split_ifs <;> rfl

/-- C15 fails as stated: in a cycle whose test data are all `0`, on the memory
engine that fails the batched read of the sixth group (`D501`), the slot of
that group is 100 zeros and the cycle ends with `integrity_ok = true`: the
zero-filled slot agrees with the zeros the sequential pass reads. -/
theorem zeroed_group_passes_integrity :
    ∃ r, run_cycle (faultyEngine 5) memoryClient zeroTestData = some r ∧
      r.scattered_read_data.getD 5 [] = List.replicate 100 0 ∧
      r.sequential_read_data = zeroTestData ∧
      r.integrity_ok = true ∧ r.reports = [] := by
  have htd : zeroTestData.length = 1000 := List.length_replicate _ _
  obtain ⟨r, h1, -, h3, h4, h5, h6⟩ :=
    run_cycle_memory (fun off num => decide (off = 100 * 5 + 1) && decide (num = 100))
      (faulty_scalar_reads 5) memoryClient zeroTestData htd
  have h5' : r.sequential_read_data = load (written zeroTestData memoryClient.eng) 1 1000 := by
    rw [h5, load_written _ _ htd]
  obtain ⟨a1, -, a3, a4⟩ := faulty_reads r _ 5 (by omega) h3 h4 h5' h6
  have hok : r.integrity_ok = true := by
    cases hr : r.integrity_ok with
    | true => rfl
    | false =>
      obtain ⟨j, hj, hne⟩ := a3.mp hr
      exfalso
      apply hne
      unfold written
      rw [if_pos (by omega)]
      exact zeroTestData_getD _
  exact ⟨r, h1, a1, h5, hok, a4 hok⟩

/-- C15, amended: in a cycle where the engine fails the batched read of
exactly one group `bad` and succeeds on every other read, for every content of
controller memory: the failed group's slot is 100 values all equal to `0`;
each of the other nine groups holds exactly the 100 words the engine returned
and agrees element by element with the sequential result; and `integrity_ok`
is `false` at the end of the cycle exactly when some register of the failed
group holds a non-zero word (a failed group whose registers all hold `0`
passes the check, which then reports nothing).  The same holds at the end of a
whole cycle for every test data of 1000 words, the registers then holding the
test data. -/
theorem failed_group_reads_zero (st : State (Nat → Nat)) (bad : Nat) (hbad : bad < 10) :
    (∃ r, read_and_check (faultyEngine bad) st = some r ∧
      r.scattered_read_data.length = 10 ∧
      r.scattered_read_data.getD bad [] = List.replicate 100 0 ∧
      (∀ k, k < 10 → k ≠ bad →
        r.scattered_read_data.getD k [] = load st.eng (100 * k + 1) 100 ∧
        ∀ j, j < 100 →
          (r.scattered_read_data[k]?).bind (fun g => g[j]?) =
            r.sequential_read_data[100 * k + j]?) ∧
      r.sequential_read_data = load st.eng 1 1000 ∧
      (r.integrity_ok = false ↔ ∃ j, j < 100 ∧ st.eng (100 * bad + 1 + j) ≠ 0) ∧
      (r.integrity_ok = true → r.reports = [])) ∧
    (∀ test_data : List Nat, test_data.length = 1000 →
      ∃ r, run_cycle (faultyEngine bad) st test_data = some r ∧
        r.scattered_read_data.length = 10 ∧
        r.scattered_read_data.getD bad [] = List.replicate 100 0 ∧
        (∀ k, k < 10 → k ≠ bad → ∀ j, j < 100 →
          (r.scattered_read_data[k]?).bind (fun g => g[j]?) =
            r.sequential_read_data[100 * k + j]?) ∧
        r.sequential_read_data = test_data ∧
        (r.integrity_ok = false ↔ ∃ j, j < 100 ∧ test_data.getD (100 * bad + j) 0 ≠ 0) ∧
        (r.integrity_ok = true → r.reports = [])) := by
  constructor
  · obtain ⟨r, h1, -, h3, h4, h5, h6⟩ :=
      read_and_check_memory
        (fun off num => decide (off = 100 * bad + 1) && decide (num = 100))
        (faulty_scalar_reads bad) st
    obtain ⟨a1, a2, a3, a4⟩ := faulty_reads r st.eng bad hbad h3 h4 h5 h6
    exact ⟨r, h1, h3, a1, a2, h5, a3, a4⟩
  · intro td htd
    obtain ⟨r, h1, -, h3, h4, h5, h6⟩ :=
      run_cycle_memory
        (fun off num => decide (off = 100 * bad + 1) && decide (num = 100))
        (faulty_scalar_reads bad) st td htd
    have h5' : r.sequential_read_data = load (written td st.eng) 1 1000 := by
      rw [h5, load_written td _ htd]
    obtain ⟨a1, a2, a3, a4⟩ := faulty_reads r (written td st.eng) bad hbad h3 h4 h5' h6
    refine ⟨r, h1, h3, a1, fun k hk hne => (a2 k hk hne).2, h5, ?_, a4⟩
    rw [a3]
    constructor
    · rintro ⟨j, hj, hne⟩
      refine ⟨j, hj, ?_⟩
      unfold written at hne
      rw [if_pos (by omega)] at hne
      have e : 100 * bad + 1 + j - 1 = 100 * bad + j := by omega
      rw [e] at hne
      exact hne
    · rintro ⟨j, hj, hne⟩
      refine ⟨j, hj, ?_⟩
      unfold written
      rw [if_pos (by omega)]
      have e : 100 * bad + 1 + j - 1 = 100 * bad + j := by omega
      rw [e]
      exact hne

/-- Witness of the amended C15: the sixth group fails on a memory of zeros. -/
theorem failed_group_reads_zero_witness :
    (5 : Nat) < 10 ∧
    ∃ r, read_and_check (faultyEngine 5) memoryClient = some r ∧
      r.scattered_read_data.getD 5 [] = List.replicate 100 0 ∧
      (r.integrity_ok = false ↔ ∃ j, j < 100 ∧ memoryClient.eng (100 * 5 + 1 + j) ≠ 0) := by
  refine ⟨by decide, ?_⟩
  obtain ⟨⟨r, h1, -, h2, -, -, h3, -⟩, -⟩ :=
    failed_group_reads_zero memoryClient 5 (by decide)
  exact ⟨r, h1, h2, h3⟩

end plc_slmp
